import Mathlib

/-!
# Market-maker simulation: order lifecycle, quoting policy and cancel resolution

A shallow embedding of `src/market-maker.cpp`.

Modelling conventions.

* `double` values are exact rationals (`ℚ`); the literal `0.01` is `1/100`, `0.2` is `1/5`.
  Rounding, infinities and NaN are outside the model.
* `int` values are mathematical integers (`ℤ`) and are converted to `ℚ` where the source
  converts them to `double`.  The negation `-qty_per_fill` is exact (it overflows in the source
  only at `INT_MIN`, where the C++ behaviour is undefined).
* The random stream `std::mt19937_64& rng` is replaced by the values drawn from it: every
  function that draws takes the drawn value as an argument, and one loop iteration takes a
  `Draws` record with the five values it can consume.
* `std::exp` is a library function that is not part of the repository; it is a parameter
  `std_exp : ℚ → ℚ` of the fill engine and of everything that calls it.
* `std::exit(1)` is the `Except.error` result.
* Mutation through references is explicit state passing: a function that mutates an
  `Order&` and a `MarketMaker&` returns the new order and the new market maker.
-/

set_option linter.unusedVariables false

namespace MarketMakerSim

/-! ## Data model (source lines 7-40) -/

/-- The market state: `struct MarketState`. -/
structure MarketState where
  mid_price : ℚ
  spread : ℚ
  deriving DecidableEq, Repr

/-- The order state machine's states: `enum class Order::State`. -/
inductive Order.State where
  | NONE
  | ACTIVE
  | PENDING_CANCEL
  | CANCELED
  | FILLED
  deriving DecidableEq, Repr

/-- One resting order: `struct Order`, with the source's member initialisers. -/
structure Order where
  state : Order.State := Order.State.NONE
  price : ℚ := 0
  deriving DecidableEq, Repr

/-- The agent: `struct MarketMaker`, with the source's member initialisers. -/
structure MarketMaker where
  inventory : ℚ := 0
  cash : ℚ := 0
  fair_value : ℚ := 100
  base_spread : ℚ := 1 / 5
  inventory_limit : ℚ := 10000
  gamma : ℚ := 1 / 100
  bid_order : Order := {}
  ask_order : Order := {}
  deriving DecidableEq, Repr

open Order.State

/-! ## Quoting policy (source lines 43-94) -/

/-- The method `MarketMaker::request_cancel` (lines 90-94). -/
def request_cancel (o : Order) : Order :=
  if o.state = ACTIVE then { o with state := PENDING_CANCEL } else o

/-- The method `MarketMaker::quote` (lines 43-87). -/
def quote (mm : MarketMaker) (mkt : MarketState) : MarketMaker :=
  let inv_penalty := mm.gamma * mm.inventory
  let effective_mid := mkt.mid_price - inv_penalty
  let half_spread := mm.base_spread / 2
  let desired_bid := effective_mid - half_spread
  let desired_ask := effective_mid + half_spread
  let desired_bid := if desired_bid > mkt.mid_price then mkt.mid_price - 1 / 100 else desired_bid
  let desired_ask := if desired_ask < mkt.mid_price then mkt.mid_price + 1 / 100 else desired_ask
  let mm :=
    if mm.inventory ≥ mm.inventory_limit then
      (if mm.bid_order.state = ACTIVE then
        { mm with bid_order := request_cancel mm.bid_order }
      else mm)
    else
      (if mm.bid_order.state = NONE ∨ mm.bid_order.state = CANCELED
          ∨ mm.bid_order.state = FILLED then
        { mm with bid_order := { mm.bid_order with state := ACTIVE, price := desired_bid } }
      else mm)
  if mm.inventory ≤ -mm.inventory_limit then
    (if mm.ask_order.state = ACTIVE then
      { mm with ask_order := request_cancel mm.ask_order }
    else mm)
  else
    (if mm.ask_order.state = NONE ∨ mm.ask_order.state = CANCELED
        ∨ mm.ask_order.state = FILLED then
      { mm with ask_order := { mm.ask_order with state := ACTIVE, price := desired_ask } }
    else mm)

/-- The value of the local `desired_bid` of `quote` before the safety clamp (line 50). -/
def raw_bid (mm : MarketMaker) (mkt : MarketState) : ℚ :=
  mkt.mid_price - mm.gamma * mm.inventory - mm.base_spread / 2

/-- The value of the local `desired_ask` of `quote` before the safety clamp (line 51). -/
def raw_ask (mm : MarketMaker) (mkt : MarketState) : ℚ :=
  mkt.mid_price - mm.gamma * mm.inventory + mm.base_spread / 2

/-- The value of the local `desired_bid` of `quote` after the safety clamp (line 54). -/
def desired_bid (mm : MarketMaker) (mkt : MarketState) : ℚ :=
  if raw_bid mm mkt > mkt.mid_price then mkt.mid_price - 1 / 100 else raw_bid mm mkt

/-- The value of the local `desired_ask` of `quote` after the safety clamp (line 55). -/
def desired_ask (mm : MarketMaker) (mkt : MarketState) : ℚ :=
  if raw_ask mm mkt < mkt.mid_price then mkt.mid_price + 1 / 100 else raw_ask mm mkt

/-- The bid cutoff test of `quote` (line 58). -/
def bid_cutoff (mm : MarketMaker) : Prop := mm.inventory ≥ mm.inventory_limit

/-- The ask cutoff test of `quote` (line 73). -/
def ask_cutoff (mm : MarketMaker) : Prop := mm.inventory ≤ -mm.inventory_limit

instance (mm : MarketMaker) : Decidable (bid_cutoff mm) := by
  unfold bid_cutoff; infer_instance

instance (mm : MarketMaker) : Decidable (ask_cutoff mm) := by
  unfold ask_cutoff; infer_instance

/-- The arming test of `quote` (lines 64-66 and 79-81). -/
def armable (st : Order.State) : Prop := st = NONE ∨ st = CANCELED ∨ st = FILLED

instance (st : Order.State) : Decidable (armable st) := by
  unfold armable; infer_instance

/-- The method `MarketMaker::handle_fill` (lines 99-102). -/
def handle_fill (mm : MarketMaker) (price : ℚ) (quantity : ℤ) : MarketMaker :=
  { mm with inventory := mm.inventory + (quantity : ℚ),
            cash := mm.cash - price * (quantity : ℚ) }

/-! ## Price process, fill engine and cancel resolution (source lines 107-179) -/

/-- The function `std::max(a, b)`, which returns `b` when `a < b` and `a` otherwise. -/
def std_max (a b : ℚ) : ℚ := if a < b then b else a

/-- The function `update_midprice` (lines 107-111); `shock` is the normal draw. -/
def update_midprice (mkt : MarketState) (shock : ℚ) : MarketState :=
  { mkt with mid_price := std_max (1 / 100) (mkt.mid_price + shock) }

/-- The function `maybe_fill_active_order` (lines 115-137); `u` is the uniform draw and
`std_exp` the library exponential. -/
def maybe_fill_active_order (std_exp : ℚ → ℚ) (o : Order) (mkt : MarketState) (u : ℚ)
    (is_bid_side : Bool) : Bool :=
  if o.state ≠ ACTIVE then false
  else
    let dist := if is_bid_side then mkt.mid_price - o.price else o.price - mkt.mid_price
    let dist := if dist < 0 then 0 else dist
    let intensity := std_exp (-dist * 10)
    decide (u < intensity)

/-- The function `resolve_pending_cancel` (lines 141-168); `fill_before_cancel` is the
Bernoulli draw.  Returns the order `o` and the market maker `mm` after the call. -/
def resolve_pending_cancel (o : Order) (mm : MarketMaker) (mkt : MarketState)
    (fill_before_cancel : Bool) (is_bid_side : Bool) (qty_per_fill : ℤ) :
    Order × MarketMaker :=
  if o.state ≠ PENDING_CANCEL then (o, mm)
  else if fill_before_cancel then
    let qty := if is_bid_side then qty_per_fill else -qty_per_fill
    ({ o with state := FILLED }, handle_fill mm o.price qty)
  else
    ({ o with state := CANCELED }, mm)

/-- The function `assert_no_lost_cancels` (lines 173-179): the error is the fatal exit. -/
def assert_no_lost_cancels (o : Order) : Except String Unit :=
  if o.state = PENDING_CANCEL then
    Except.error "ERROR: Lost cancel! Order is still PENDING_CANCEL at end of step."
  else Except.ok ()

/-! ## The driver loop (source lines 181-264) -/

/-- The values one loop iteration can draw from the random stream, in the order of the
source: the normal shock of `update_midprice`, the uniform draws of the two fill attempts
and the Bernoulli draws of the two cancel resolutions. -/
structure Draws where
  shock : ℚ
  u_bid : ℚ
  u_ask : ℚ
  fbc_bid : Bool
  fbc_ask : Bool
  deriving DecidableEq, Repr

/-- The variables of `main` that live across loop iterations: `mkt` and `mm`. -/
structure Sim where
  mkt : MarketState
  mm : MarketMaker
  deriving DecidableEq, Repr

/-- The state of `main` before the loop (lines 186-191). -/
def init : Sim :=
  { mkt := { mid_price := 100, spread := 1 / 5 }, mm := {} }

/-- Phases 1 and 2 of the loop body (lines 201 and 204): price update, then quoting. -/
def after_quote (s : Sim) (shock : ℚ) : Sim :=
  let mkt := update_midprice s.mkt shock
  { mkt := mkt, mm := quote s.mm mkt }

/-- The bid fill attempt of phase 3 (lines 208-211). -/
def fill_bid (std_exp : ℚ → ℚ) (qty_per_fill : ℤ) (mm : MarketMaker) (mkt : MarketState)
    (u : ℚ) : MarketMaker :=
  if maybe_fill_active_order std_exp mm.bid_order mkt u true then
    let mm1 := handle_fill mm mm.bid_order.price qty_per_fill
    { mm1 with bid_order := { mm1.bid_order with state := FILLED } }
  else mm

/-- The ask fill attempt of phase 3 (lines 212-215). -/
def fill_ask (std_exp : ℚ → ℚ) (qty_per_fill : ℤ) (mm : MarketMaker) (mkt : MarketState)
    (u : ℚ) : MarketMaker :=
  if maybe_fill_active_order std_exp mm.ask_order mkt u false then
    let mm1 := handle_fill mm mm.ask_order.price (-qty_per_fill)
    { mm1 with ask_order := { mm1.ask_order with state := FILLED } }
  else mm

/-- The call `resolve_pending_cancel(mm.bid_order, mm, ...)` of line 219: the order
argument aliases `mm.bid_order`, so the returned order is stored back into it. -/
def resolve_bid (qty_per_fill : ℤ) (mm : MarketMaker) (mkt : MarketState) (fbc : Bool) :
    MarketMaker :=
  let r := resolve_pending_cancel mm.bid_order mm mkt fbc true qty_per_fill
  { r.2 with bid_order := r.1 }

/-- The call `resolve_pending_cancel(mm.ask_order, mm, ...)` of line 220. -/
def resolve_ask (qty_per_fill : ℤ) (mm : MarketMaker) (mkt : MarketState) (fbc : Bool) :
    MarketMaker :=
  let r := resolve_pending_cancel mm.ask_order mm mkt fbc false qty_per_fill
  { r.2 with ask_order := r.1 }

/-- Phases 1 to 4 of the loop body (lines 199-220): the state at the invariant check. -/
def step_to_resolution (std_exp : ℚ → ℚ) (qty_per_fill : ℤ) (s : Sim) (d : Draws) : Sim :=
  let s1 := after_quote s d.shock
  let mm := fill_bid std_exp qty_per_fill s1.mm s1.mkt d.u_bid
  let mm := fill_ask std_exp qty_per_fill mm s1.mkt d.u_ask
  let mm := resolve_bid qty_per_fill mm s1.mkt d.fbc_bid
  let mm := resolve_ask qty_per_fill mm s1.mkt d.fbc_ask
  { mkt := s1.mkt, mm := mm }

/-- Phase 7 of the loop body (lines 254-263): FILLED and CANCELED orders become NONE. -/
def recycle (mm : MarketMaker) : MarketMaker :=
  let mm := if mm.bid_order.state = FILLED ∨ mm.bid_order.state = CANCELED then
      { mm with bid_order := { mm.bid_order with state := NONE } } else mm
  if mm.ask_order.state = FILLED ∨ mm.ask_order.state = CANCELED then
    { mm with ask_order := { mm.ask_order with state := NONE } } else mm

/-- One iteration of the loop of `main` (lines 199-264); reporting (lines 227-251) writes
to the output stream only and is omitted. -/
def step (std_exp : ℚ → ℚ) (qty_per_fill : ℤ) (s : Sim) (d : Draws) : Except String Sim :=
  let s4 := step_to_resolution std_exp qty_per_fill s d
  match assert_no_lost_cancels s4.mm.bid_order with
  | Except.error e => Except.error e
  | Except.ok _ =>
    match assert_no_lost_cancels s4.mm.ask_order with
    | Except.error e => Except.error e
    | Except.ok _ => Except.ok { mkt := s4.mkt, mm := recycle s4.mm }

/-- The loop of `main` over the draws of its iterations, one `Draws` record per iteration;
it stops at the first fatal exit. -/
def run (std_exp : ℚ → ℚ) (qty_per_fill : ℤ) : Sim → List Draws → Except String Sim
  | s, [] => Except.ok s
  | s, d :: ds =>
    (step std_exp qty_per_fill s d).bind (fun s1 => run std_exp qty_per_fill s1 ds)

/-- The constant `qty_per_fill` of `main` (line 194). -/
def main_qty_per_fill : ℤ := 1

/-- The constant `n_steps` of `main` (line 193). -/
def n_steps : ℕ := 10000

/-- A sequence of `handle_fill` calls, one per `(price, quantity)` pair, in order. -/
def handle_fills (mm : MarketMaker) : List (ℚ × ℤ) → MarketMaker
  | [] => mm
  | f :: fs => handle_fills (handle_fill mm f.1 f.2) fs

/-- The state of `main` after a loop iteration that passed the invariant check: phases 1 to
4 followed by the recycle of phase 7. -/
def step_result (std_exp : ℚ → ℚ) (qty_per_fill : ℤ) (s : Sim) (d : Draws) : Sim :=
  { mkt := (step_to_resolution std_exp qty_per_fill s d).mkt,
    mm := recycle (step_to_resolution std_exp qty_per_fill s d).mm }

/-- The two market makers have the same parameters (everything but inventory, cash and the
two orders). -/
def same_params (a b : MarketMaker) : Prop :=
  a.fair_value = b.fair_value ∧ a.base_spread = b.base_spread
    ∧ a.inventory_limit = b.inventory_limit ∧ a.gamma = b.gamma

/-- A rational upper bound of the exponential on non-positive arguments, `1 / (1 - x)`.  It
stands in for `std::exp` where a run is evaluated on concrete draws: a uniform draw that is
not below this bound is not below `exp x`, and the draw 0 is below both. -/
def exp_bound (x : ℚ) : ℚ := 1 / (1 - x)

/-- The draws of an iteration with no price move in which neither order is filled and no
cancel is confirmed as a fill. -/
def quiet_draws : Draws :=
  { shock := 0, u_bid := 99 / 100, u_ask := 99 / 100, fbc_bid := false, fbc_ask := false }

/-- The state of `main` after one quiet iteration from `init`: both orders working at the
prices quoted around the mid-price 100. -/
def quoted_sim : Sim :=
  { mkt := { mid_price := 100, spread := 1 / 5 },
    mm := { bid_order := { state := ACTIVE, price := 999 / 10 },
            ask_order := { state := ACTIVE, price := 1001 / 10 } } }

/-- The draws of an iteration with no price move in which only the ask is filled. -/
def ask_fill_draws : Draws :=
  { shock := 0, u_bid := 99 / 100, u_ask := 0, fbc_bid := false, fbc_ask := false }

/-- The draws of an iteration with no price move in which both orders are filled. -/
def both_fill_draws : Draws :=
  { shock := 0, u_bid := 0, u_ask := 0, fbc_bid := false, fbc_ask := false }

/-- The state of `main` after `k` iterations from `init` with `ask_fill_draws`, for
`k >= 1`: the bid of the first iteration still working at 99.9, `k` shares sold at the ask
prices `100.1 + j / 100` for `j < k`, the last ask recycled. -/
def short_sim (k : ℕ) : Sim :=
  { mkt := { mid_price := 100, spread := 1 / 5 },
    mm := { inventory := -(k : ℚ),
            cash := (k : ℚ) * (1001 / 10) + (k : ℚ) * ((k : ℚ) - 1) / 200,
            bid_order := { state := ACTIVE, price := 999 / 10 },
            ask_order := { state := NONE, price := 1001 / 10 + ((k : ℚ) - 1) / 100 } } }

/-- The state of `main` after ten iterations with `ask_fill_draws` and one with
`both_fill_draws` from `init`: ten shares short, both orders recycled. -/
def flat_sim : Sim :=
  { mkt := { mid_price := 100, spread := 1 / 5 },
    mm := { inventory := -10,
            cash := 100175 / 100,
            bid_order := { state := NONE, price := 999 / 10 },
            ask_order := { state := NONE, price := 1002 / 10 } } }

/-- Phases 3 and 4 of the loop body (lines 208-220) on the market maker left by `quote`:
the two fill attempts, then the two cancel resolutions. -/
def fill_and_resolve (std_exp : ℚ → ℚ) (qty_per_fill : ℤ) (mm : MarketMaker)
    (mkt : MarketState) (d : Draws) : MarketMaker :=
  resolve_ask qty_per_fill
    (resolve_bid qty_per_fill
      (fill_ask std_exp qty_per_fill (fill_bid std_exp qty_per_fill mm mkt d.u_bid) mkt d.u_ask)
      mkt d.fbc_bid)
    mkt d.fbc_ask

/-- The bid of `mm` is filled in phases 3 and 4: by the fill engine, or as a pending cancel
that the fill wins. -/
def bid_fills (std_exp : ℚ → ℚ) (mm : MarketMaker) (mkt : MarketState) (d : Draws) : Prop :=
  maybe_fill_active_order std_exp mm.bid_order mkt d.u_bid true = true
    ∨ (mm.bid_order.state = PENDING_CANCEL ∧ d.fbc_bid = true)

/-- The ask of `mm` is filled in phases 3 and 4: by the fill engine, or as a pending cancel
that the fill wins. -/
def ask_fills (std_exp : ℚ → ℚ) (mm : MarketMaker) (mkt : MarketState) (d : Draws) : Prop :=
  maybe_fill_active_order std_exp mm.ask_order mkt d.u_ask false = true
    ∨ (mm.ask_order.state = PENDING_CANCEL ∧ d.fbc_ask = true)

instance (std_exp : ℚ → ℚ) (mm : MarketMaker) (mkt : MarketState) (d : Draws) :
    Decidable (bid_fills std_exp mm mkt d) := by
  unfold bid_fills; infer_instance

instance (std_exp : ℚ → ℚ) (mm : MarketMaker) (mkt : MarketState) (d : Draws) :
    Decidable (ask_fills std_exp mm mkt d) := by
  unfold ask_fills; infer_instance

/-- The invariant of the orders at the start of a loop iteration: each order is NONE or
ACTIVE, a working bid comes with an inventory below the limit and a working ask with an
inventory above minus the limit. -/
def order_inv (mm : MarketMaker) : Prop :=
  (mm.bid_order.state = NONE ∨ mm.bid_order.state = ACTIVE)
    ∧ (mm.ask_order.state = NONE ∨ mm.ask_order.state = ACTIVE)
    ∧ (mm.bid_order.state = ACTIVE → mm.inventory < mm.inventory_limit)
    ∧ (mm.ask_order.state = ACTIVE → -mm.inventory_limit < mm.inventory)

/-- The invariant of the run of `main`: the parameters of `init`, the order invariant, an
integral inventory, and an inventory between minus the limit and the limit. -/
def main_inv (s : Sim) : Prop :=
  same_params s.mm init.mm ∧ order_inv s.mm ∧ (∃ n : ℤ, s.mm.inventory = (n : ℚ))
    ∧ -10000 ≤ s.mm.inventory ∧ s.mm.inventory ≤ 10000

/-! ## Unfolding lemmas for `quote` -/

theorem quote_bid_order (mm : MarketMaker) (mkt : MarketState) :
    (quote mm mkt).bid_order =
      if bid_cutoff mm then request_cancel mm.bid_order
      else if armable mm.bid_order.state then { state := ACTIVE, price := desired_bid mm mkt }
      else mm.bid_order := by
  unfold quote bid_cutoff armable desired_bid raw_bid request_cancel
  simp only []
  split_ifs <;> simp_all

theorem quote_ask_order (mm : MarketMaker) (mkt : MarketState) :
    (quote mm mkt).ask_order =
      if ask_cutoff mm then request_cancel mm.ask_order
      else if armable mm.ask_order.state then { state := ACTIVE, price := desired_ask mm mkt }
      else mm.ask_order := by
  unfold quote ask_cutoff armable desired_ask raw_ask request_cancel
  simp only []
  split_ifs <;> simp_all

theorem quote_frame (mm : MarketMaker) (mkt : MarketState) :
    (quote mm mkt).inventory = mm.inventory ∧ (quote mm mkt).cash = mm.cash
      ∧ (quote mm mkt).fair_value = mm.fair_value
      ∧ (quote mm mkt).base_spread = mm.base_spread
      ∧ (quote mm mkt).inventory_limit = mm.inventory_limit
      ∧ (quote mm mkt).gamma = mm.gamma := by
  unfold quote
  simp only []
  split_ifs <;> simp

/-! ## Cancel resolution is total (C1, C2) -/

/-- C1: `resolve_pending_cancel` never returns with the order in PENDING_CANCEL, for every
order, agent, side, quantity and Bernoulli outcome: an order that enters in PENDING_CANCEL
leaves in FILLED or CANCELED, and an order that enters in any other state is returned
unchanged. -/
theorem resolve_pending_cancel_total (o : Order) (mm : MarketMaker) (mkt : MarketState)
    (fill_before_cancel is_bid_side : Bool) (qty_per_fill : ℤ) :
    (resolve_pending_cancel o mm mkt fill_before_cancel is_bid_side qty_per_fill).1.state
        ≠ PENDING_CANCEL
    ∧ (o.state = PENDING_CANCEL →
        (resolve_pending_cancel o mm mkt fill_before_cancel is_bid_side qty_per_fill).1.state
            = FILLED
        ∨ (resolve_pending_cancel o mm mkt fill_before_cancel is_bid_side qty_per_fill).1.state
            = CANCELED)
    ∧ (o.state ≠ PENDING_CANCEL →
        (resolve_pending_cancel o mm mkt fill_before_cancel is_bid_side qty_per_fill).1 = o) := by
  by_cases h : o.state = PENDING_CANCEL <;> cases fill_before_cancel <;>
    simp [resolve_pending_cancel, h]

/-- C1, at a concrete input: a pending bid at price 99.9 with a winning Bernoulli draw
leaves `resolve_pending_cancel` FILLED or CANCELED, and not PENDING_CANCEL. -/
theorem resolve_pending_cancel_total_witness :
    (resolve_pending_cancel { state := PENDING_CANCEL, price := 999 / 10 } {}
        { mid_price := 100, spread := 1 / 5 } true true 1).1.state ≠ PENDING_CANCEL
    ∧ ((resolve_pending_cancel { state := PENDING_CANCEL, price := 999 / 10 } {}
          { mid_price := 100, spread := 1 / 5 } true true 1).1.state = FILLED
      ∨ (resolve_pending_cancel { state := PENDING_CANCEL, price := 999 / 10 } {}
          { mid_price := 100, spread := 1 / 5 } true true 1).1.state = CANCELED) :=
  ⟨(resolve_pending_cancel_total { state := PENDING_CANCEL, price := 999 / 10 } {}
      { mid_price := 100, spread := 1 / 5 } true true 1).1,
   (resolve_pending_cancel_total { state := PENDING_CANCEL, price := 999 / 10 } {}
      { mid_price := 100, spread := 1 / 5 } true true 1).2.1 rfl⟩

theorem resolve_bid_state (qty_per_fill : ℤ) (mm : MarketMaker) (mkt : MarketState)
    (fbc : Bool) : (resolve_bid qty_per_fill mm mkt fbc).bid_order.state ≠ PENDING_CANCEL := by
  by_cases h : mm.bid_order.state = PENDING_CANCEL <;> cases fbc <;>
    simp [resolve_bid, resolve_pending_cancel, h]

theorem resolve_ask_state (qty_per_fill : ℤ) (mm : MarketMaker) (mkt : MarketState)
    (fbc : Bool) : (resolve_ask qty_per_fill mm mkt fbc).ask_order.state ≠ PENDING_CANCEL := by
  by_cases h : mm.ask_order.state = PENDING_CANCEL <;> cases fbc <;>
    simp [resolve_ask, resolve_pending_cancel, h]

theorem resolve_ask_bid_order (qty_per_fill : ℤ) (mm : MarketMaker) (mkt : MarketState)
    (fbc : Bool) : (resolve_ask qty_per_fill mm mkt fbc).bid_order = mm.bid_order := by
  unfold resolve_ask resolve_pending_cancel handle_fill
  simp only []
  split_ifs <;> rfl

theorem resolve_bid_ask_order (qty_per_fill : ℤ) (mm : MarketMaker) (mkt : MarketState)
    (fbc : Bool) : (resolve_bid qty_per_fill mm mkt fbc).ask_order = mm.ask_order := by
  unfold resolve_bid resolve_pending_cancel handle_fill
  simp only []
  split_ifs <;> rfl

theorem step_to_resolution_bid_state (std_exp : ℚ → ℚ) (qty_per_fill : ℤ) (s : Sim)
    (d : Draws) :
    (step_to_resolution std_exp qty_per_fill s d).mm.bid_order.state ≠ PENDING_CANCEL := by
  unfold step_to_resolution
  simp only [resolve_ask_bid_order]
  exact resolve_bid_state _ _ _ _

theorem step_to_resolution_ask_state (std_exp : ℚ → ℚ) (qty_per_fill : ℤ) (s : Sim)
    (d : Draws) :
    (step_to_resolution std_exp qty_per_fill s d).mm.ask_order.state ≠ PENDING_CANCEL := by
  unfold step_to_resolution
  exact resolve_ask_state _ _ _ _

theorem state_cases_of_ne_pending {st : Order.State} (h : st ≠ PENDING_CANCEL) :
    st = NONE ∨ st = ACTIVE ∨ st = CANCELED ∨ st = FILLED := by
  cases st <;> simp at h ⊢

theorem step_eq_ok (std_exp : ℚ → ℚ) (qty_per_fill : ℤ) (s : Sim) (d : Draws) :
    step std_exp qty_per_fill s d
      = Except.ok { mkt := (step_to_resolution std_exp qty_per_fill s d).mkt,
                    mm := recycle (step_to_resolution std_exp qty_per_fill s d).mm } := by
  have hb := step_to_resolution_bid_state std_exp qty_per_fill s d
  have ha := step_to_resolution_ask_state std_exp qty_per_fill s d
  unfold step assert_no_lost_cancels
  simp [hb, ha]

/-- C2: for every pre-step state and every combination of draws, after phases 1 to 4 of one
loop iteration both orders are in one of NONE, ACTIVE, CANCELED, FILLED and not in
PENDING_CANCEL, both calls of `assert_no_lost_cancels` return normally, and the iteration
completes without the fatal exit. -/
theorem step_no_lost_cancel (std_exp : ℚ → ℚ) (qty_per_fill : ℤ) (s : Sim) (d : Draws) :
    ((step_to_resolution std_exp qty_per_fill s d).mm.bid_order.state = NONE
      ∨ (step_to_resolution std_exp qty_per_fill s d).mm.bid_order.state = ACTIVE
      ∨ (step_to_resolution std_exp qty_per_fill s d).mm.bid_order.state = CANCELED
      ∨ (step_to_resolution std_exp qty_per_fill s d).mm.bid_order.state = FILLED)
    ∧ ((step_to_resolution std_exp qty_per_fill s d).mm.ask_order.state = NONE
      ∨ (step_to_resolution std_exp qty_per_fill s d).mm.ask_order.state = ACTIVE
      ∨ (step_to_resolution std_exp qty_per_fill s d).mm.ask_order.state = CANCELED
      ∨ (step_to_resolution std_exp qty_per_fill s d).mm.ask_order.state = FILLED)
    ∧ (step_to_resolution std_exp qty_per_fill s d).mm.bid_order.state ≠ PENDING_CANCEL
    ∧ (step_to_resolution std_exp qty_per_fill s d).mm.ask_order.state ≠ PENDING_CANCEL
    ∧ assert_no_lost_cancels (step_to_resolution std_exp qty_per_fill s d).mm.bid_order
        = Except.ok ()
    ∧ assert_no_lost_cancels (step_to_resolution std_exp qty_per_fill s d).mm.ask_order
        = Except.ok ()
    ∧ step std_exp qty_per_fill s d
        = Except.ok { mkt := (step_to_resolution std_exp qty_per_fill s d).mkt,
                      mm := recycle (step_to_resolution std_exp qty_per_fill s d).mm } := by
  have hb := step_to_resolution_bid_state std_exp qty_per_fill s d
  have ha := step_to_resolution_ask_state std_exp qty_per_fill s d
  refine ⟨state_cases_of_ne_pending hb, state_cases_of_ne_pending ha, hb, ha, ?_, ?_,
    step_eq_ok std_exp qty_per_fill s d⟩
  · simp [assert_no_lost_cancels, hb]
  · simp [assert_no_lost_cancels, ha]

/-! ## Ledger (C3) -/

theorem handle_fills_ledger (mm : MarketMaker) (fs : List (ℚ × ℤ)) :
    (handle_fills mm fs).cash = mm.cash - (fs.map (fun f => f.1 * (f.2 : ℚ))).sum
    ∧ (handle_fills mm fs).inventory = mm.inventory + (fs.map (fun f => (f.2 : ℚ))).sum := by
  induction fs generalizing mm with
  | nil => simp [handle_fills]
  | cons f fs ih =>
    obtain ⟨hc, hi⟩ := ih (handle_fill mm f.1 f.2)
    simp only [handle_fills, List.map_cons, List.sum_cons]
    rw [hc, hi]
    simp only [handle_fill]
    constructor <;> ring

/-- C3: ledger conservation.  Starting from inventory 0 and cash 0, after any finite sequence
of `handle_fill (price_i, qty_i)` calls the cash is minus the sum of `price_i * qty_i` and the
inventory is the sum of the `qty_i`, in exact arithmetic. -/
theorem ledger_conservation (mm : MarketMaker) (fs : List (ℚ × ℤ))
    (hinv : mm.inventory = 0) (hcash : mm.cash = 0) :
    (handle_fills mm fs).cash = -(fs.map (fun f => f.1 * (f.2 : ℚ))).sum
    ∧ (handle_fills mm fs).inventory = (fs.map (fun f => (f.2 : ℚ))).sum := by
  obtain ⟨hc, hi⟩ := handle_fills_ledger mm fs
  rw [hc, hi, hinv, hcash]
  constructor <;> ring

/-- C3, at a concrete input: the fresh market maker of `main`, one buy at 99.9 and one sell
at 100.1. -/
theorem ledger_conservation_witness :
    (handle_fills {} [(999 / 10, 1), (1001 / 10, -1)]).cash
        = -(([(999 / 10, 1), (1001 / 10, -1)] : List (ℚ × ℤ)).map
            (fun f => f.1 * (f.2 : ℚ))).sum
    ∧ (handle_fills {} [(999 / 10, 1), (1001 / 10, -1)]).inventory
        = (([(999 / 10, 1), (1001 / 10, -1)] : List (ℚ × ℤ)).map (fun f => (f.2 : ℚ))).sum :=
  ledger_conservation {} [(999 / 10, 1), (1001 / 10, -1)] rfl rfl

/-! ## Quoting policy (C4, C5, C7) -/

/-- C4: hard cutoff.  With `inventory >= inventory_limit` at entry to `quote`, the bid is not
ACTIVE afterwards: a bid that was not ACTIVE is left as it was (not armed), and a bid that was
ACTIVE is in PENDING_CANCEL.  Symmetrically for the ask with
`inventory <= -inventory_limit`. -/
theorem quote_hard_cutoff (mm : MarketMaker) (mkt : MarketState) :
    (mm.inventory ≥ mm.inventory_limit →
      (quote mm mkt).bid_order.state ≠ ACTIVE
      ∧ (mm.bid_order.state ≠ ACTIVE → (quote mm mkt).bid_order = mm.bid_order)
      ∧ (mm.bid_order.state = ACTIVE → (quote mm mkt).bid_order.state = PENDING_CANCEL))
    ∧ (mm.inventory ≤ -mm.inventory_limit →
      (quote mm mkt).ask_order.state ≠ ACTIVE
      ∧ (mm.ask_order.state ≠ ACTIVE → (quote mm mkt).ask_order = mm.ask_order)
      ∧ (mm.ask_order.state = ACTIVE → (quote mm mkt).ask_order.state = PENDING_CANCEL)) := by
  constructor
  · intro h
    have hc : bid_cutoff mm := h
    rw [quote_bid_order, if_pos hc]
    by_cases ha : mm.bid_order.state = ACTIVE <;> simp [request_cancel, ha]
  · intro h
    have hc : ask_cutoff mm := h
    rw [quote_ask_order, if_pos hc]
    by_cases ha : mm.ask_order.state = ACTIVE <;> simp [request_cancel, ha]

/-- C4, at a concrete input: inventory 10000 at the limit with a working bid at 99.9, and
inventory -10000 with a working ask at 100.1. -/
theorem quote_hard_cutoff_witness :
    (quote { inventory := 10000, bid_order := { state := ACTIVE, price := 999 / 10 } }
        { mid_price := 100, spread := 1 / 5 }).bid_order.state = PENDING_CANCEL
    ∧ (quote { inventory := -10000, ask_order := { state := ACTIVE, price := 1001 / 10 } }
        { mid_price := 100, spread := 1 / 5 }).ask_order.state = PENDING_CANCEL :=
  ⟨((quote_hard_cutoff
      { inventory := 10000, bid_order := { state := ACTIVE, price := 999 / 10 } }
      { mid_price := 100, spread := 1 / 5 }).1 (by norm_num)).2.2 rfl,
   ((quote_hard_cutoff
      { inventory := -10000, ask_order := { state := ACTIVE, price := 1001 / 10 } }
      { mid_price := 100, spread := 1 / 5 }).2 (by norm_num)).2.2 rfl⟩

theorem desired_bid_le_mid (mm : MarketMaker) (mkt : MarketState) :
    desired_bid mm mkt ≤ mkt.mid_price := by
  unfold desired_bid
  split_ifs with h
  · linarith
  · exact not_lt.mp h

theorem mid_le_desired_ask (mm : MarketMaker) (mkt : MarketState) :
    mkt.mid_price ≤ desired_ask mm mkt := by
  unfold desired_ask
  split_ifs with h
  · linarith
  · exact not_lt.mp h

theorem desired_bid_lt_mid (mm : MarketMaker) (mkt : MarketState)
    (h : raw_bid mm mkt ≠ mkt.mid_price) : desired_bid mm mkt < mkt.mid_price := by
  unfold desired_bid
  split_ifs with h1
  · linarith
  · exact lt_of_le_of_ne (not_lt.mp h1) h

theorem mid_lt_desired_ask (mm : MarketMaker) (mkt : MarketState)
    (h : raw_ask mm mkt ≠ mkt.mid_price) : mkt.mid_price < desired_ask mm mkt := by
  unfold desired_ask
  split_ifs with h1
  · linarith
  · exact lt_of_le_of_ne (not_lt.mp h1) (Ne.symm h)

/-- C5 fails as stated: with the default parameters (gamma 0.01, base spread 0.2), inventory
-10 and mid-price 100, the desired bid is exactly the mid; `quote` does not clamp it and arms
the idle bid at price 100, which touches the mid and is not `mid_price - 0.01`. -/
theorem quote_clamp_touches_mid :
    ({ inventory := -10 } : MarketMaker).bid_order.state = NONE
    ∧ raw_bid { inventory := -10 } { mid_price := 100, spread := 1 / 5 }
        ≥ ({ mid_price := 100, spread := 1 / 5 } : MarketState).mid_price
    ∧ (quote { inventory := -10 } { mid_price := 100, spread := 1 / 5 }).bid_order
        = { state := ACTIVE, price := 100 }
    ∧ ¬ ((quote { inventory := -10 } { mid_price := 100, spread := 1 / 5 }).bid_order.price
        < ({ mid_price := 100, spread := 1 / 5 } : MarketState).mid_price)
    ∧ (quote { inventory := -10 } { mid_price := 100, spread := 1 / 5 }).bid_order.price
        ≠ ({ mid_price := 100, spread := 1 / 5 } : MarketState).mid_price - 1 / 100 := by
  norm_num [quote, request_cancel, raw_bid]

/-- C5, amended: whenever `quote` arms a side (the side's cutoff does not apply and the order
is NONE, CANCELED or FILLED at entry), the order becomes ACTIVE with a bid price at most
`mid_price`, respectively an ask price at least `mid_price`.  A desired bid strictly above the
mid is clamped to `mid_price - 0.01` and a desired ask strictly below the mid to
`mid_price + 0.01`; otherwise the desired price is used unclamped.  The armed price is
strictly off the mid whenever the desired price differs from the mid, so a freshly armed
quote never crosses the mid. -/
theorem quote_clamp (mm : MarketMaker) (mkt : MarketState) :
    (¬ mm.inventory ≥ mm.inventory_limit →
      (mm.bid_order.state = NONE ∨ mm.bid_order.state = CANCELED
        ∨ mm.bid_order.state = FILLED) →
      (quote mm mkt).bid_order.state = ACTIVE
      ∧ (quote mm mkt).bid_order.price ≤ mkt.mid_price
      ∧ (raw_bid mm mkt > mkt.mid_price →
          (quote mm mkt).bid_order.price = mkt.mid_price - 1 / 100)
      ∧ (¬ raw_bid mm mkt > mkt.mid_price → (quote mm mkt).bid_order.price = raw_bid mm mkt)
      ∧ (raw_bid mm mkt ≠ mkt.mid_price → (quote mm mkt).bid_order.price < mkt.mid_price))
    ∧ (¬ mm.inventory ≤ -mm.inventory_limit →
      (mm.ask_order.state = NONE ∨ mm.ask_order.state = CANCELED
        ∨ mm.ask_order.state = FILLED) →
      (quote mm mkt).ask_order.state = ACTIVE
      ∧ mkt.mid_price ≤ (quote mm mkt).ask_order.price
      ∧ (raw_ask mm mkt < mkt.mid_price →
          (quote mm mkt).ask_order.price = mkt.mid_price + 1 / 100)
      ∧ (¬ raw_ask mm mkt < mkt.mid_price → (quote mm mkt).ask_order.price = raw_ask mm mkt)
      ∧ (raw_ask mm mkt ≠ mkt.mid_price → mkt.mid_price < (quote mm mkt).ask_order.price)) := by
  constructor
  · intro hc ha
    have hc1 : ¬ bid_cutoff mm := hc
    have ha1 : armable mm.bid_order.state := ha
    rw [quote_bid_order, if_neg hc1, if_pos ha1]
    refine ⟨rfl, desired_bid_le_mid mm mkt, ?_, ?_, desired_bid_lt_mid mm mkt⟩
    · intro h
      simp [desired_bid, h]
    · intro h
      simp only [desired_bid, if_neg h]
  · intro hc ha
    have hc1 : ¬ ask_cutoff mm := hc
    have ha1 : armable mm.ask_order.state := ha
    rw [quote_ask_order, if_neg hc1, if_pos ha1]
    refine ⟨rfl, mid_le_desired_ask mm mkt, ?_, ?_, mid_lt_desired_ask mm mkt⟩
    · intro h
      simp [desired_ask, h]
    · intro h
      simp only [desired_ask, if_neg h]

/-- C5 amended, at a concrete input: the fresh market maker of `main` at mid-price 100 arms
its bid strictly below and its ask strictly above the mid. -/
theorem quote_clamp_witness :
    (quote {} { mid_price := 100, spread := 1 / 5 }).bid_order.price
        < ({ mid_price := 100, spread := 1 / 5 } : MarketState).mid_price
    ∧ ({ mid_price := 100, spread := 1 / 5 } : MarketState).mid_price
        < (quote {} { mid_price := 100, spread := 1 / 5 }).ask_order.price :=
  ⟨((quote_clamp {} { mid_price := 100, spread := 1 / 5 }).1 (by norm_num)
      (Or.inl rfl)).2.2.2.2 (by norm_num [raw_bid]),
   ((quote_clamp {} { mid_price := 100, spread := 1 / 5 }).2 (by norm_num)
      (Or.inl rfl)).2.2.2.2 (by norm_num [raw_ask])⟩

/-- C7: arming eligibility, for each side of `quote`.  An order that is NONE, CANCELED or
FILLED at entry, with the side's cutoff not applying, becomes ACTIVE at the freshly computed
price; an order that leaves `quote` ACTIVE and changed was NONE, CANCELED or FILLED at entry
with the cutoff not applying; an order ACTIVE at entry and not subject to the cutoff is
left ACTIVE with its price unchanged; an order PENDING_CANCEL at entry is left with state and
price unchanged. -/
theorem quote_arming_eligibility (mm : MarketMaker) (mkt : MarketState) :
    ((¬ mm.inventory ≥ mm.inventory_limit →
        (mm.bid_order.state = NONE ∨ mm.bid_order.state = CANCELED
          ∨ mm.bid_order.state = FILLED) →
        (quote mm mkt).bid_order = { state := ACTIVE, price := desired_bid mm mkt })
      ∧ ((quote mm mkt).bid_order.state = ACTIVE → (quote mm mkt).bid_order ≠ mm.bid_order →
        (mm.bid_order.state = NONE ∨ mm.bid_order.state = CANCELED
          ∨ mm.bid_order.state = FILLED)
        ∧ ¬ mm.inventory ≥ mm.inventory_limit
        ∧ (quote mm mkt).bid_order.price = desired_bid mm mkt)
      ∧ (mm.bid_order.state = ACTIVE → ¬ mm.inventory ≥ mm.inventory_limit →
        (quote mm mkt).bid_order = mm.bid_order)
      ∧ (mm.bid_order.state = PENDING_CANCEL → (quote mm mkt).bid_order = mm.bid_order))
    ∧ ((¬ mm.inventory ≤ -mm.inventory_limit →
        (mm.ask_order.state = NONE ∨ mm.ask_order.state = CANCELED
          ∨ mm.ask_order.state = FILLED) →
        (quote mm mkt).ask_order = { state := ACTIVE, price := desired_ask mm mkt })
      ∧ ((quote mm mkt).ask_order.state = ACTIVE → (quote mm mkt).ask_order ≠ mm.ask_order →
        (mm.ask_order.state = NONE ∨ mm.ask_order.state = CANCELED
          ∨ mm.ask_order.state = FILLED)
        ∧ ¬ mm.inventory ≤ -mm.inventory_limit
        ∧ (quote mm mkt).ask_order.price = desired_ask mm mkt)
      ∧ (mm.ask_order.state = ACTIVE → ¬ mm.inventory ≤ -mm.inventory_limit →
        (quote mm mkt).ask_order = mm.ask_order)
      ∧ (mm.ask_order.state = PENDING_CANCEL → (quote mm mkt).ask_order = mm.ask_order)) := by
  constructor
  · rw [quote_bid_order]
    by_cases hc : bid_cutoff mm
    · have hc1 : mm.inventory ≥ mm.inventory_limit := hc
      rw [if_pos hc]
      refine ⟨fun h => absurd hc1 h, ?_, fun _ h => absurd hc1 h, ?_⟩
      · by_cases ha : mm.bid_order.state = ACTIVE <;> simp [request_cancel, ha]
      · intro hp
        simp [request_cancel, hp]
    · have hc1 : ¬ mm.inventory ≥ mm.inventory_limit := hc
      rw [if_neg hc]
      by_cases ha : armable mm.bid_order.state
      · have ha1 : mm.bid_order.state = NONE ∨ mm.bid_order.state = CANCELED
            ∨ mm.bid_order.state = FILLED := ha
        rw [if_pos ha]
        refine ⟨fun _ _ => rfl, fun _ _ => ⟨ha1, hc1, rfl⟩, ?_, ?_⟩
        · intro h
          rcases ha1 with h1 | h1 | h1 <;> simp [h1] at h
        · intro h
          rcases ha1 with h1 | h1 | h1 <;> simp [h1] at h
      · have ha1 : ¬ (mm.bid_order.state = NONE ∨ mm.bid_order.state = CANCELED
            ∨ mm.bid_order.state = FILLED) := ha
        rw [if_neg ha]
        exact ⟨fun _ h => absurd h ha1, fun _ h => absurd rfl h, fun _ _ => rfl, fun _ => rfl⟩
  · rw [quote_ask_order]
    by_cases hc : ask_cutoff mm
    · have hc1 : mm.inventory ≤ -mm.inventory_limit := hc
      rw [if_pos hc]
      refine ⟨fun h => absurd hc1 h, ?_, fun _ h => absurd hc1 h, ?_⟩
      · by_cases ha : mm.ask_order.state = ACTIVE <;> simp [request_cancel, ha]
      · intro hp
        simp [request_cancel, hp]
    · have hc1 : ¬ mm.inventory ≤ -mm.inventory_limit := hc
      rw [if_neg hc]
      by_cases ha : armable mm.ask_order.state
      · have ha1 : mm.ask_order.state = NONE ∨ mm.ask_order.state = CANCELED
            ∨ mm.ask_order.state = FILLED := ha
        rw [if_pos ha]
        refine ⟨fun _ _ => rfl, fun _ _ => ⟨ha1, hc1, rfl⟩, ?_, ?_⟩
        · intro h
          rcases ha1 with h1 | h1 | h1 <;> simp [h1] at h
        · intro h
          rcases ha1 with h1 | h1 | h1 <;> simp [h1] at h
      · have ha1 : ¬ (mm.ask_order.state = NONE ∨ mm.ask_order.state = CANCELED
            ∨ mm.ask_order.state = FILLED) := ha
        rw [if_neg ha]
        exact ⟨fun _ h => absurd h ha1, fun _ h => absurd rfl h, fun _ _ => rfl, fun _ => rfl⟩

/-- C7, at a concrete input: with inventory 0, a CANCELED bid last priced 99 is re-armed at
99.9 and a working ask at 101 is left as it is. -/
theorem quote_arming_eligibility_witness :
    (quote { bid_order := { state := CANCELED, price := 99 },
             ask_order := { state := ACTIVE, price := 101 } }
        { mid_price := 100, spread := 1 / 5 }).bid_order
      = { state := ACTIVE,
          price := desired_bid { bid_order := { state := CANCELED, price := 99 },
                                 ask_order := { state := ACTIVE, price := 101 } }
                     { mid_price := 100, spread := 1 / 5 } }
    ∧ (quote { bid_order := { state := CANCELED, price := 99 },
               ask_order := { state := ACTIVE, price := 101 } }
        { mid_price := 100, spread := 1 / 5 }).ask_order = { state := ACTIVE, price := 101 } :=
  ⟨(quote_arming_eligibility
      { bid_order := { state := CANCELED, price := 99 },
        ask_order := { state := ACTIVE, price := 101 } }
      { mid_price := 100, spread := 1 / 5 }).1.1 (by norm_num) (Or.inr (Or.inl rfl)),
   (quote_arming_eligibility
      { bid_order := { state := CANCELED, price := 99 },
        ask_order := { state := ACTIVE, price := 101 } }
      { mid_price := 100, spread := 1 / 5 }).2.2.2.1 rfl (by norm_num)⟩

/-! ## Outcomes of the cancel race (C8, C9) -/

/-- C8: fill-before-cancel outcome.  For an order in PENDING_CANCEL with price `p` and any
`qty_per_fill = q`, a true Bernoulli draw sets the order to FILLED; on the bid side the
inventory increases by `q` and the cash decreases by `p * q`, on the ask side the inventory
decreases by `q` and the cash increases by `p * q`. -/
theorem resolve_fill_before_cancel (o : Order) (mm : MarketMaker) (mkt : MarketState)
    (qty_per_fill : ℤ) (h : o.state = PENDING_CANCEL) :
    ((resolve_pending_cancel o mm mkt true true qty_per_fill).1.state = FILLED
      ∧ (resolve_pending_cancel o mm mkt true true qty_per_fill).2.inventory
          = mm.inventory + (qty_per_fill : ℚ)
      ∧ (resolve_pending_cancel o mm mkt true true qty_per_fill).2.cash
          = mm.cash - o.price * (qty_per_fill : ℚ))
    ∧ ((resolve_pending_cancel o mm mkt true false qty_per_fill).1.state = FILLED
      ∧ (resolve_pending_cancel o mm mkt true false qty_per_fill).2.inventory
          = mm.inventory - (qty_per_fill : ℚ)
      ∧ (resolve_pending_cancel o mm mkt true false qty_per_fill).2.cash
          = mm.cash + o.price * (qty_per_fill : ℚ)) := by
  simp only [resolve_pending_cancel, h, handle_fill]
  refine ⟨⟨by simp, by simp, by simp⟩, by simp, ?_, ?_⟩
  · simp only [ne_eq, not_true_eq_false, ↓reduceIte, Bool.false_eq_true, Int.cast_neg]
    ring
  · simp only [ne_eq, not_true_eq_false, ↓reduceIte, Bool.false_eq_true, Int.cast_neg]
    ring

/-- C8, at a concrete input: a pending bid at 99.9 on the fresh market maker of `main` with
quantity 1 is filled, the inventory becomes 1 and the cash -99.9. -/
theorem resolve_fill_before_cancel_witness :
    (resolve_pending_cancel { state := PENDING_CANCEL, price := 999 / 10 } {}
        { mid_price := 100, spread := 1 / 5 } true true 1).1.state = FILLED
    ∧ (resolve_pending_cancel { state := PENDING_CANCEL, price := 999 / 10 } {}
        { mid_price := 100, spread := 1 / 5 } true true 1).2.inventory = 1
    ∧ (resolve_pending_cancel { state := PENDING_CANCEL, price := 999 / 10 } {}
        { mid_price := 100, spread := 1 / 5 } true true 1).2.cash = -(999 / 10) := by
  have h := (resolve_fill_before_cancel { state := PENDING_CANCEL, price := 999 / 10 } {}
    { mid_price := 100, spread := 1 / 5 } 1 rfl).1
  refine ⟨h.1, ?_, ?_⟩
  · rw [h.2.1]; norm_num
  · rw [h.2.2]; norm_num

/-- C9: cancel-confirm outcome.  For an order in PENDING_CANCEL, on either side, a false
Bernoulli draw sets the order to CANCELED and leaves the order's price and the whole market
maker, in particular inventory and cash, unchanged. -/
theorem resolve_cancel_confirm (o : Order) (mm : MarketMaker) (mkt : MarketState)
    (is_bid_side : Bool) (qty_per_fill : ℤ) (h : o.state = PENDING_CANCEL) :
    (resolve_pending_cancel o mm mkt false is_bid_side qty_per_fill).1.state = CANCELED
    ∧ (resolve_pending_cancel o mm mkt false is_bid_side qty_per_fill).1.price = o.price
    ∧ (resolve_pending_cancel o mm mkt false is_bid_side qty_per_fill).2.inventory
        = mm.inventory
    ∧ (resolve_pending_cancel o mm mkt false is_bid_side qty_per_fill).2.cash = mm.cash
    ∧ (resolve_pending_cancel o mm mkt false is_bid_side qty_per_fill).2 = mm := by
  simp [resolve_pending_cancel, h]

/-- C9, at a concrete input: a pending ask at 100.1 whose cancel is confirmed. -/
theorem resolve_cancel_confirm_witness :
    (resolve_pending_cancel { state := PENDING_CANCEL, price := 1001 / 10 }
        { inventory := 3, cash := -300 } { mid_price := 100, spread := 1 / 5 }
        false false 1).1.state = CANCELED
    ∧ (resolve_pending_cancel { state := PENDING_CANCEL, price := 1001 / 10 }
        { inventory := 3, cash := -300 } { mid_price := 100, spread := 1 / 5 }
        false false 1).1.price = 1001 / 10
    ∧ (resolve_pending_cancel { state := PENDING_CANCEL, price := 1001 / 10 }
        { inventory := 3, cash := -300 } { mid_price := 100, spread := 1 / 5 }
        false false 1).2 = { inventory := 3, cash := -300 } := by
  have h := resolve_cancel_confirm { state := PENDING_CANCEL, price := 1001 / 10 }
    { inventory := 3, cash := -300 } { mid_price := 100, spread := 1 / 5 } false 1 rfl
  exact ⟨h.1, h.2.1, h.2.2.2.2⟩

/-! ## Runs of the driver loop -/

theorem same_params_refl (a : MarketMaker) : same_params a a := ⟨rfl, rfl, rfl, rfl⟩

theorem same_params_trans {a b c : MarketMaker} (h1 : same_params a b)
    (h2 : same_params b c) : same_params a c :=
  ⟨h1.1.trans h2.1, h1.2.1.trans h2.2.1, h1.2.2.1.trans h2.2.2.1, h1.2.2.2.trans h2.2.2.2⟩

theorem quote_same_params (mm : MarketMaker) (mkt : MarketState) :
    same_params (quote mm mkt) mm := by
  obtain ⟨_, _, h3, h4, h5, h6⟩ := quote_frame mm mkt
  exact ⟨h3, h4, h5, h6⟩

theorem fill_bid_same_params (std_exp : ℚ → ℚ) (qty_per_fill : ℤ) (mm : MarketMaker)
    (mkt : MarketState) (u : ℚ) : same_params (fill_bid std_exp qty_per_fill mm mkt u) mm := by
  unfold fill_bid same_params handle_fill
  split_ifs <;> simp

theorem fill_ask_same_params (std_exp : ℚ → ℚ) (qty_per_fill : ℤ) (mm : MarketMaker)
    (mkt : MarketState) (u : ℚ) : same_params (fill_ask std_exp qty_per_fill mm mkt u) mm := by
  unfold fill_ask same_params handle_fill
  split_ifs <;> simp

theorem resolve_bid_same_params (qty_per_fill : ℤ) (mm : MarketMaker) (mkt : MarketState)
    (fbc : Bool) : same_params (resolve_bid qty_per_fill mm mkt fbc) mm := by
  unfold resolve_bid resolve_pending_cancel same_params handle_fill
  simp only []
  split_ifs <;> simp

theorem resolve_ask_same_params (qty_per_fill : ℤ) (mm : MarketMaker) (mkt : MarketState)
    (fbc : Bool) : same_params (resolve_ask qty_per_fill mm mkt fbc) mm := by
  unfold resolve_ask resolve_pending_cancel same_params handle_fill
  simp only []
  split_ifs <;> simp

theorem recycle_same_params (mm : MarketMaker) : same_params (recycle mm) mm := by
  unfold recycle same_params
  simp only []
  split_ifs <;> simp

theorem step_result_same_params (std_exp : ℚ → ℚ) (qty_per_fill : ℤ) (s : Sim) (d : Draws) :
    same_params (step_result std_exp qty_per_fill s d).mm s.mm := by
  unfold step_result step_to_resolution after_quote
  simp only []
  exact same_params_trans (recycle_same_params _)
    (same_params_trans (resolve_ask_same_params _ _ _ _)
      (same_params_trans (resolve_bid_same_params _ _ _ _)
        (same_params_trans (fill_ask_same_params _ _ _ _ _)
          (same_params_trans (fill_bid_same_params _ _ _ _ _) (quote_same_params _ _)))))

theorem step_result_mkt (std_exp : ℚ → ℚ) (qty_per_fill : ℤ) (s : Sim) (d : Draws) :
    (step_result std_exp qty_per_fill s d).mkt = update_midprice s.mkt d.shock := rfl

theorem step_eq_step_result (std_exp : ℚ → ℚ) (qty_per_fill : ℤ) (s : Sim) (d : Draws) :
    step std_exp qty_per_fill s d = Except.ok (step_result std_exp qty_per_fill s d) :=
  step_eq_ok std_exp qty_per_fill s d

theorem run_cons (std_exp : ℚ → ℚ) (qty_per_fill : ℤ) (s : Sim) (d : Draws)
    (ds : List Draws) :
    run std_exp qty_per_fill s (d :: ds)
      = run std_exp qty_per_fill (step_result std_exp qty_per_fill s d) ds := by
  rw [run, step_eq_step_result]
  rfl

theorem run_snoc (std_exp : ℚ → ℚ) (qty_per_fill : ℤ) (s s1 : Sim) (ds : List Draws)
    (d : Draws) (h : run std_exp qty_per_fill s ds = Except.ok s1) :
    run std_exp qty_per_fill s (ds ++ [d])
      = Except.ok (step_result std_exp qty_per_fill s1 d) := by
  induction ds generalizing s with
  | nil =>
    simp only [run, Except.ok.injEq] at h
    subst h
    rw [List.nil_append, run_cons, run]
  | cons e es ih =>
    rw [run_cons] at h
    rw [List.cons_append, run_cons]
    exact ih _ h

/-- The loop never takes the fatal exit, and every property that holds before the loop and
is kept by each completed iteration holds after it. -/
theorem run_invariant (std_exp : ℚ → ℚ) (qty_per_fill : ℤ) (P : Sim → Prop)
    (hstep : ∀ s d, P s → P (step_result std_exp qty_per_fill s d)) (s : Sim) (hs : P s)
    (ds : List Draws) : ∃ s1, run std_exp qty_per_fill s ds = Except.ok s1 ∧ P s1 := by
  induction ds generalizing s with
  | nil => exact ⟨s, rfl, hs⟩
  | cons d ds ih =>
    rw [run_cons]
    exact ih _ (hstep s d hs)

theorem run_total (std_exp : ℚ → ℚ) (qty_per_fill : ℤ) (s : Sim) (ds : List Draws) :
    ∃ s1, run std_exp qty_per_fill s ds = Except.ok s1 := by
  obtain ⟨s1, h, _⟩ := run_invariant std_exp qty_per_fill (fun _ => True)
    (fun _ _ _ => trivial) s trivial ds
  exact ⟨s1, h⟩

/-! ## Phase lemmas -/

theorem fill_bid_of_no_fill (std_exp : ℚ → ℚ) (qty_per_fill : ℤ) (mm : MarketMaker)
    (mkt : MarketState) (u : ℚ)
    (h : maybe_fill_active_order std_exp mm.bid_order mkt u true = false) :
    fill_bid std_exp qty_per_fill mm mkt u = mm := by
  simp [fill_bid, h]

theorem fill_ask_of_no_fill (std_exp : ℚ → ℚ) (qty_per_fill : ℤ) (mm : MarketMaker)
    (mkt : MarketState) (u : ℚ)
    (h : maybe_fill_active_order std_exp mm.ask_order mkt u false = false) :
    fill_ask std_exp qty_per_fill mm mkt u = mm := by
  simp [fill_ask, h]

theorem fill_bid_of_fill (std_exp : ℚ → ℚ) (qty_per_fill : ℤ) (mm : MarketMaker)
    (mkt : MarketState) (u : ℚ)
    (h : maybe_fill_active_order std_exp mm.bid_order mkt u true = true) :
    fill_bid std_exp qty_per_fill mm mkt u
      = { mm with inventory := mm.inventory + (qty_per_fill : ℚ),
                  cash := mm.cash - mm.bid_order.price * (qty_per_fill : ℚ),
                  bid_order := { state := FILLED, price := mm.bid_order.price } } := by
  simp [fill_bid, h, handle_fill]

theorem fill_ask_of_fill (std_exp : ℚ → ℚ) (qty_per_fill : ℤ) (mm : MarketMaker)
    (mkt : MarketState) (u : ℚ)
    (h : maybe_fill_active_order std_exp mm.ask_order mkt u false = true) :
    fill_ask std_exp qty_per_fill mm mkt u
      = { mm with inventory := mm.inventory + ((-qty_per_fill : ℤ) : ℚ),
                  cash := mm.cash - mm.ask_order.price * ((-qty_per_fill : ℤ) : ℚ),
                  ask_order := { state := FILLED, price := mm.ask_order.price } } := by
  simp [fill_ask, h, handle_fill]

theorem resolve_bid_of_not_pending (qty_per_fill : ℤ) (mm : MarketMaker) (mkt : MarketState)
    (fbc : Bool) (h : mm.bid_order.state ≠ PENDING_CANCEL) :
    resolve_bid qty_per_fill mm mkt fbc = mm := by
  simp [resolve_bid, resolve_pending_cancel, h]

theorem resolve_ask_of_not_pending (qty_per_fill : ℤ) (mm : MarketMaker) (mkt : MarketState)
    (fbc : Bool) (h : mm.ask_order.state ≠ PENDING_CANCEL) :
    resolve_ask qty_per_fill mm mkt fbc = mm := by
  simp [resolve_ask, resolve_pending_cancel, h]

/-! ## Price floor (C10) -/

theorem std_max_eq_max (a b : ℚ) : std_max a b = max a b := by
  unfold std_max
  split_ifs with h
  · exact (max_eq_right (le_of_lt h)).symm
  · exact (max_eq_left (not_lt.mp h)).symm

theorem update_midprice_ge (mkt : MarketState) (shock : ℚ) :
    1 / 100 ≤ (update_midprice mkt shock).mid_price := by
  simp only [update_midprice, std_max_eq_max]
  exact le_max_left _ _

/-- C10: price floor.  For every prior mid-price and every shock, `update_midprice` yields
`max(0.01, mid_price + shock)`, which is at least 0.01 and strictly positive; and after every
iteration of any run of the loop, from any state and with any draws, the loop has not exited
and the mid-price is at least 0.01 and strictly positive. -/
theorem update_midprice_floor (mkt : MarketState) (shock : ℚ) (std_exp : ℚ → ℚ)
    (qty_per_fill : ℤ) (s : Sim) (ds : List Draws) (d : Draws) :
    (update_midprice mkt shock).mid_price = max (1 / 100) (mkt.mid_price + shock)
    ∧ 1 / 100 ≤ (update_midprice mkt shock).mid_price
    ∧ 0 < (update_midprice mkt shock).mid_price
    ∧ ∃ s1, run std_exp qty_per_fill s (ds ++ [d]) = Except.ok s1
        ∧ 1 / 100 ≤ s1.mkt.mid_price ∧ 0 < s1.mkt.mid_price := by
  have hfloor : ∀ (m : MarketState) (x : ℚ), 0 < (update_midprice m x).mid_price :=
    fun m x => lt_of_lt_of_le (by norm_num) (update_midprice_ge m x)
  refine ⟨?_, update_midprice_ge mkt shock, hfloor mkt shock, ?_⟩
  · simp only [update_midprice, std_max_eq_max]
  · obtain ⟨s0, h0⟩ := run_total std_exp qty_per_fill s ds
    refine ⟨_, run_snoc std_exp qty_per_fill s s0 ds d h0, ?_, ?_⟩
    · rw [step_result_mkt]
      exact update_midprice_ge _ _
    · rw [step_result_mkt]
      exact hfloor _ _

/-! ## Quotes against the moving mid-price (C6) -/

/-- One quiet iteration from `init` leaves both orders working at 99.9 and 100.1, for every
exponential whose value at -1 is at most 0.99 (as is `exp (-1) = 0.367...`). -/
theorem run_quiet_step (std_exp : ℚ → ℚ) (h : std_exp (-1) ≤ 99 / 100) :
    run std_exp main_qty_per_fill init [quiet_draws] = Except.ok quoted_sim := by
  have h1 : ¬ (99 / 100 < std_exp (-1)) := not_lt.mpr h
  rw [run_cons, run]
  norm_num +decide [step_result, step_to_resolution, after_quote, update_midprice, std_max,
    quote, request_cancel, fill_bid, fill_ask, maybe_fill_active_order, resolve_bid,
    resolve_ask, resolve_pending_cancel, recycle, init, handle_fill, main_qty_per_fill,
    quiet_draws, quoted_sim, h1]

theorem step_result_init_ask_fill (std_exp : ℚ → ℚ) (h : std_exp (-1) ≤ 99 / 100)
    (hpos : ∀ x, x ≤ 0 → 0 < std_exp x) :
    step_result std_exp main_qty_per_fill init ask_fill_draws = short_sim 1 := by
  have h1 : ¬ (99 / 100 < std_exp (-1)) := not_lt.mpr h
  have h2 : 0 < std_exp (-1) := hpos _ (by norm_num)
  norm_num +decide [step_result, step_to_resolution, after_quote, update_midprice, std_max,
    quote, request_cancel, fill_bid, fill_ask, maybe_fill_active_order, resolve_bid,
    resolve_ask, resolve_pending_cancel, recycle, init, handle_fill, main_qty_per_fill,
    ask_fill_draws, short_sim, h1, h2]

theorem step_result_short_sim (std_exp : ℚ → ℚ) (h : std_exp (-1) ≤ 99 / 100)
    (hpos : ∀ x, x ≤ 0 → 0 < std_exp x) (k : ℕ) (hk : k < 10000) :
    step_result std_exp main_qty_per_fill (short_sim k) ask_fill_draws = short_sim (k + 1) := by
  have h3 : (0 : ℚ) ≤ k := Nat.cast_nonneg k
  have h4 : (k : ℚ) < 10000 := by exact_mod_cast hk
  have h1 : ¬ ((10000 : ℚ) ≤ -(k : ℚ)) := by linarith
  have h2 : ¬ ((10000 : ℚ) ≤ (k : ℚ)) := by linarith
  have hq : after_quote (short_sim k) ask_fill_draws.shock
      = { mkt := { mid_price := 100, spread := 1 / 5 },
          mm := { inventory := -(k : ℚ),
                  cash := (k : ℚ) * (1001 / 10) + (k : ℚ) * ((k : ℚ) - 1) / 200,
                  bid_order := { state := ACTIVE, price := 999 / 10 },
                  ask_order := { state := ACTIVE, price := 1001 / 10 + (k : ℚ) / 100 } } } := by
    norm_num +decide [after_quote, update_midprice, std_max, quote, request_cancel, short_sim,
      ask_fill_draws, h1, h2]
    rw [if_neg (by linarith)]
    ring
  have hnb : maybe_fill_active_order std_exp { state := ACTIVE, price := 999 / 10 }
      { mid_price := 100, spread := 1 / 5 } ask_fill_draws.u_bid true = false := by
    have h5 : ¬ (99 / 100 < std_exp (-1)) := not_lt.mpr h
    norm_num [maybe_fill_active_order, ask_fill_draws, h5]
  have hfa : maybe_fill_active_order std_exp
      { state := ACTIVE, price := 1001 / 10 + (k : ℚ) / 100 }
      { mid_price := 100, spread := 1 / 5 } ask_fill_draws.u_ask false = true := by
    have h5 : ¬ ((1001 : ℚ) / 10 + (k : ℚ) / 100 - 100 < 0) := by linarith
    simp only [maybe_fill_active_order, ne_eq, not_true_eq_false, ↓reduceIte, Bool.false_eq_true,
      h5, ask_fill_draws, decide_eq_true_eq]
    apply hpos
    linarith
  unfold step_result step_to_resolution
  simp only [hq]
  rw [fill_bid_of_no_fill _ _ _ _ _ hnb, fill_ask_of_fill _ _ _ _ _ hfa,
    resolve_bid_of_not_pending _ _ _ _ (by simp), resolve_ask_of_not_pending _ _ _ _ (by simp)]
  norm_num +decide [recycle, short_sim, main_qty_per_fill]
  constructor <;> ring

theorem run_short_sim (std_exp : ℚ → ℚ) (h : std_exp (-1) ≤ 99 / 100)
    (hpos : ∀ x, x ≤ 0 → 0 < std_exp x) (n k : ℕ) (hk : k + n ≤ 10000) :
    run std_exp main_qty_per_fill (short_sim k) (List.replicate n ask_fill_draws)
      = Except.ok (short_sim (k + n)) := by
  induction n generalizing k with
  | zero => rfl
  | succ n ih =>
    rw [List.replicate_succ, run_cons, step_result_short_sim std_exp h hpos k (by omega),
      ih (k + 1) (by omega)]
    congr 2
    omega

theorem step_result_short_sim_both_fill (std_exp : ℚ → ℚ)
    (hpos : ∀ x, x ≤ 0 → 0 < std_exp x) :
    step_result std_exp main_qty_per_fill (short_sim 10) both_fill_draws = flat_sim := by
  have h1 : 0 < std_exp (-1) := hpos _ (by norm_num)
  have h2 : 0 < std_exp (-2) := hpos _ (by norm_num)
  norm_num +decide [step_result, step_to_resolution, after_quote, update_midprice, std_max,
    quote, request_cancel, fill_bid, fill_ask, maybe_fill_active_order, resolve_bid,
    resolve_ask, resolve_pending_cancel, recycle, handle_fill, main_qty_per_fill,
    both_fill_draws, short_sim, flat_sim, h1, h2]

/-- Ten iterations in which only the ask is filled and one in which both orders are filled
lead from `init` to `flat_sim`, for every exponential that is positive on non-positive
arguments and at most 0.99 at -1. -/
theorem run_to_flat_sim (std_exp : ℚ → ℚ) (h : std_exp (-1) ≤ 99 / 100)
    (hpos : ∀ x, x ≤ 0 → 0 < std_exp x) :
    run std_exp main_qty_per_fill init (List.replicate 10 ask_fill_draws ++ [both_fill_draws])
      = Except.ok flat_sim := by
  have h10 : run std_exp main_qty_per_fill init (List.replicate 10 ask_fill_draws)
      = Except.ok (short_sim 10) := by
    rw [List.replicate_succ, run_cons, step_result_init_ask_fill std_exp h hpos]
    exact run_short_sim std_exp h hpos 9 1 (by norm_num)
  rw [run_snoc std_exp main_qty_per_fill init (short_sim 10) _ both_fill_draws h10,
    step_result_short_sim_both_fill std_exp hpos]

theorem exp_bound_pos (x : ℚ) (h : x ≤ 0) : 0 < exp_bound x := by
  unfold exp_bound
  apply div_pos one_pos
  linarith

/-- C6 fails as stated, in two ways.  A working order goes stale: from `init`, after one
iteration without a fill both orders are working at 99.9 and 100.1; in the next iteration a
shock of -0.15 moves the mid to 99.85, `quote` leaves both working orders at their prices,
and the bid price 99.9 is above the current mid.  A fresh quote touches the mid: after ten
iterations in which only the ask is filled and one in which both orders are filled, the
inventory is -10 and both orders are NONE; `quote` then arms both, the bid at price 100,
which equals the mid. -/
theorem quotes_cross_or_touch_mid :
    (run exp_bound main_qty_per_fill init [quiet_draws] = Except.ok quoted_sim
      ∧ (after_quote quoted_sim (-3 / 20)).mkt.mid_price = 1997 / 20
      ∧ (after_quote quoted_sim (-3 / 20)).mm.bid_order
          = { state := ACTIVE, price := 999 / 10 }
      ∧ (after_quote quoted_sim (-3 / 20)).mm.ask_order
          = { state := ACTIVE, price := 1001 / 10 }
      ∧ ¬ ((after_quote quoted_sim (-3 / 20)).mm.bid_order.price
            < (after_quote quoted_sim (-3 / 20)).mkt.mid_price))
    ∧ (run exp_bound main_qty_per_fill init
          (List.replicate 10 ask_fill_draws ++ [both_fill_draws]) = Except.ok flat_sim
      ∧ (after_quote flat_sim 0).mkt.mid_price = 100
      ∧ (after_quote flat_sim 0).mm.bid_order = { state := ACTIVE, price := 100 }
      ∧ (after_quote flat_sim 0).mm.ask_order = { state := ACTIVE, price := 1002 / 10 }
      ∧ ¬ ((after_quote flat_sim 0).mm.bid_order.price
            < (after_quote flat_sim 0).mkt.mid_price)) := by
  refine ⟨⟨run_quiet_step exp_bound (by norm_num [exp_bound]), ?_⟩,
    ⟨run_to_flat_sim exp_bound (by norm_num [exp_bound]) exp_bound_pos, ?_⟩⟩
  · norm_num +decide [after_quote, update_midprice, std_max, quote, request_cancel, quoted_sim]
  · norm_num +decide [after_quote, update_midprice, std_max, quote, request_cancel, flat_sim]

theorem quote_fresh_bid (mm : MarketMaker) (mkt : MarketState)
    (h1 : mm.bid_order.state ≠ ACTIVE) (h2 : (quote mm mkt).bid_order.state = ACTIVE) :
    (quote mm mkt).bid_order.price = desired_bid mm mkt := by
  rw [quote_bid_order] at h2 ⊢
  by_cases hc : bid_cutoff mm
  · rw [if_pos hc] at h2
    simp [request_cancel, h1] at h2
  · rw [if_neg hc] at h2 ⊢
    by_cases ha : armable mm.bid_order.state
    · rw [if_pos ha]
    · rw [if_neg ha] at h2
      exact absurd h2 h1

theorem quote_fresh_ask (mm : MarketMaker) (mkt : MarketState)
    (h1 : mm.ask_order.state ≠ ACTIVE) (h2 : (quote mm mkt).ask_order.state = ACTIVE) :
    (quote mm mkt).ask_order.price = desired_ask mm mkt := by
  rw [quote_ask_order] at h2 ⊢
  by_cases hc : ask_cutoff mm
  · rw [if_pos hc] at h2
    simp [request_cancel, h1] at h2
  · rw [if_neg hc] at h2 ⊢
    by_cases ha : armable mm.ask_order.state
    · rw [if_pos ha]
    · rw [if_neg ha] at h2
      exact absurd h2 h1

theorem quote_active_bid_price (mm : MarketMaker) (mkt : MarketState)
    (h : mm.bid_order.state = ACTIVE) :
    (quote mm mkt).bid_order.price = mm.bid_order.price := by
  rw [quote_bid_order]
  have ha : ¬ armable mm.bid_order.state := by simp [armable, h]
  by_cases hc : bid_cutoff mm
  · simp [hc, request_cancel, h]
  · simp [hc, ha]

theorem quote_active_ask_price (mm : MarketMaker) (mkt : MarketState)
    (h : mm.ask_order.state = ACTIVE) :
    (quote mm mkt).ask_order.price = mm.ask_order.price := by
  rw [quote_ask_order]
  have ha : ¬ armable mm.ask_order.state := by simp [armable, h]
  by_cases hc : ask_cutoff mm
  · simp [hc, request_cancel, h]
  · simp [hc, ha]

/-- Every state of a run from `init` has the parameters of `init`, and the run does not
take the fatal exit. -/
theorem run_init_params (std_exp : ℚ → ℚ) (qty_per_fill : ℤ) (ds : List Draws) :
    ∃ s, run std_exp qty_per_fill init ds = Except.ok s ∧ same_params s.mm init.mm :=
  run_invariant std_exp qty_per_fill (fun s => same_params s.mm init.mm)
    (fun s d hs => same_params_trans (step_result_same_params std_exp qty_per_fill s d) hs)
    init (same_params_refl _) ds

/-- C6, amended: in every run of the loop of `main` from `init`, for every sequence of
draws, at every step after quoting: a side that is ACTIVE and was armed by this step's
`quote` call (it was not ACTIVE at the start of the step) has bid price at most, respectively
ask price at least, the current step's mid-price, strictly unless the inventory is exactly
-10 (bid) or 10 (ask), where the desired price equals the mid; a side that was already ACTIVE
at the start of the step keeps its earlier price, whatever the current mid-price is. -/
theorem fresh_quotes_do_not_cross (std_exp : ℚ → ℚ) (ds : List Draws) (shock : ℚ) :
    ∃ s, run std_exp main_qty_per_fill init ds = Except.ok s
      ∧ (s.mm.bid_order.state ≠ ACTIVE →
          (after_quote s shock).mm.bid_order.state = ACTIVE →
          (after_quote s shock).mm.bid_order.price ≤ (after_quote s shock).mkt.mid_price
          ∧ (s.mm.inventory ≠ -10 →
              (after_quote s shock).mm.bid_order.price < (after_quote s shock).mkt.mid_price))
      ∧ (s.mm.ask_order.state ≠ ACTIVE →
          (after_quote s shock).mm.ask_order.state = ACTIVE →
          (after_quote s shock).mkt.mid_price ≤ (after_quote s shock).mm.ask_order.price
          ∧ (s.mm.inventory ≠ 10 →
              (after_quote s shock).mkt.mid_price < (after_quote s shock).mm.ask_order.price))
      ∧ (s.mm.bid_order.state = ACTIVE →
          (after_quote s shock).mm.bid_order.price = s.mm.bid_order.price)
      ∧ (s.mm.ask_order.state = ACTIVE →
          (after_quote s shock).mm.ask_order.price = s.mm.ask_order.price) := by
  obtain ⟨s, hrun, _, hbs, _, hg⟩ := run_init_params std_exp main_qty_per_fill ds
  have hg1 : s.mm.gamma = 1 / 100 := hg
  have hbs1 : s.mm.base_spread = 1 / 5 := hbs
  refine ⟨s, hrun, ?_, ?_, ?_, ?_⟩
  · intro h1 h2
    have hp := quote_fresh_bid s.mm (update_midprice s.mkt shock) h1 h2
    simp only [after_quote]
    rw [hp]
    refine ⟨desired_bid_le_mid _ _, fun hinv => desired_bid_lt_mid _ _ ?_⟩
    intro heq
    apply hinv
    simp only [raw_bid, hg1, hbs1] at heq
    linarith
  · intro h1 h2
    have hp := quote_fresh_ask s.mm (update_midprice s.mkt shock) h1 h2
    simp only [after_quote]
    rw [hp]
    refine ⟨mid_le_desired_ask _ _, fun hinv => mid_lt_desired_ask _ _ ?_⟩
    intro heq
    apply hinv
    simp only [raw_ask, hg1, hbs1] at heq
    linarith
  · intro h
    exact quote_active_bid_price s.mm (update_midprice s.mkt shock) h
  · intro h
    exact quote_active_ask_price s.mm (update_midprice s.mkt shock) h

/-- C6 amended, at a concrete input: in the first iteration from `init` with no shock both
sides are armed by `quote`, the bid strictly below and the ask strictly above the mid. -/
theorem fresh_quotes_do_not_cross_witness :
    (after_quote init 0).mm.bid_order.price < (after_quote init 0).mkt.mid_price
    ∧ (after_quote init 0).mkt.mid_price < (after_quote init 0).mm.ask_order.price := by
  obtain ⟨s, hrun, hb, ha, _, _⟩ := fresh_quotes_do_not_cross exp_bound [] 0
  have hs : s = init := by
    simp only [run, Except.ok.injEq] at hrun
    exact hrun.symm
  subst hs
  have hq : after_quote init 0
      = { mkt := { mid_price := 100, spread := 1 / 5 },
          mm := { bid_order := { state := ACTIVE, price := 999 / 10 },
                  ask_order := { state := ACTIVE, price := 1001 / 10 } } } := by
    norm_num +decide [after_quote, update_midprice, std_max, quote, request_cancel, init]
  refine ⟨(hb (by simp [init]) (by rw [hq])).2 (by norm_num [init]),
    (ha (by simp [init]) (by rw [hq])).2 (by norm_num [init])⟩

/-! ## Quote formula and fill decision (C11, C12) -/

/-- C11: quote formula.  When `quote` arms a side from NONE (the side's cutoff does not
apply) and the safety clamp does not apply, the armed bid price is
`mid_price - gamma * inventory - base_spread / 2` and the armed ask price is
`mid_price - gamma * inventory + base_spread / 2`, in exact arithmetic.  With mid-price 100,
base spread 0.2, gamma 0, inventory 0 and both orders NONE, `quote` leaves both orders
ACTIVE, the bid at 99.90 and the ask at 100.10. -/
theorem quote_formula (mm : MarketMaker) (mkt : MarketState) :
    (mm.bid_order.state = NONE → ¬ mm.inventory ≥ mm.inventory_limit →
      ¬ mkt.mid_price - mm.gamma * mm.inventory - mm.base_spread / 2 > mkt.mid_price →
      (quote mm mkt).bid_order
        = { state := ACTIVE,
            price := mkt.mid_price - mm.gamma * mm.inventory - mm.base_spread / 2 })
    ∧ (mm.ask_order.state = NONE → ¬ mm.inventory ≤ -mm.inventory_limit →
      ¬ mkt.mid_price - mm.gamma * mm.inventory + mm.base_spread / 2 < mkt.mid_price →
      (quote mm mkt).ask_order
        = { state := ACTIVE,
            price := mkt.mid_price - mm.gamma * mm.inventory + mm.base_spread / 2 })
    ∧ (quote { inventory := 0, base_spread := 1 / 5, gamma := 0 }
        { mid_price := 100, spread := 1 / 5 }).bid_order
        = { state := ACTIVE, price := 999 / 10 }
    ∧ (quote { inventory := 0, base_spread := 1 / 5, gamma := 0 }
        { mid_price := 100, spread := 1 / 5 }).ask_order
        = { state := ACTIVE, price := 1001 / 10 } := by
  refine ⟨?_, ?_, ?_, ?_⟩
  · intro hs hc hcl
    have hc1 : ¬ bid_cutoff mm := hc
    have ha : armable mm.bid_order.state := Or.inl hs
    have hcl1 : ¬ raw_bid mm mkt > mkt.mid_price := hcl
    rw [quote_bid_order, if_neg hc1, if_pos ha]
    simp only [desired_bid, raw_bid, if_neg hcl]
  · intro hs hc hcl
    have hc1 : ¬ ask_cutoff mm := hc
    have ha : armable mm.ask_order.state := Or.inl hs
    have hcl1 : ¬ raw_ask mm mkt < mkt.mid_price := hcl
    rw [quote_ask_order, if_neg hc1, if_pos ha]
    simp only [desired_ask, raw_ask, if_neg hcl]
  · norm_num +decide [quote, request_cancel]
  · norm_num +decide [quote, request_cancel]

/-- C11, at a concrete input: with the default parameters (gamma 0.01, base spread 0.2),
inventory 5 and mid-price 100, the idle bid is armed at 99.85 and the idle ask at 100.05. -/
theorem quote_formula_witness :
    (quote { inventory := 5 } { mid_price := 100, spread := 1 / 5 }).bid_order.price
        = 1997 / 20
    ∧ (quote { inventory := 5 } { mid_price := 100, spread := 1 / 5 }).ask_order.price
        = 2001 / 20 := by
  have hb := (quote_formula { inventory := 5 } { mid_price := 100, spread := 1 / 5 }).1 rfl
    (by norm_num) (by norm_num)
  have ha := (quote_formula { inventory := 5 } { mid_price := 100, spread := 1 / 5 }).2.1 rfl
    (by norm_num) (by norm_num)
  rw [hb, ha]
  norm_num

/-- C12: fill decision.  For every order, market state, side and uniform draw `u`, the fill
engine reports a fill if and only if the order is ACTIVE and `u < exp (-10 * max 0 d)`, where
`d = mid_price - order.price` for a bid and `d = order.price - mid_price` for an ask; for
every order that is not ACTIVE it reports no fill.  The exponential is the parameter
`std_exp`. -/
theorem maybe_fill_active_order_iff (std_exp : ℚ → ℚ) (o : Order) (mkt : MarketState) (u : ℚ)
    (is_bid_side : Bool) :
    (maybe_fill_active_order std_exp o mkt u is_bid_side = true ↔
      o.state = ACTIVE
      ∧ u < std_exp (-10 * max 0
          (if is_bid_side then mkt.mid_price - o.price else o.price - mkt.mid_price)))
    ∧ (o.state ≠ ACTIVE → maybe_fill_active_order std_exp o mkt u is_bid_side = false) := by
  have hmax : ∀ d : ℚ, -(if d < 0 then 0 else d) * 10 = -10 * max 0 d := by
    intro d
    split_ifs with h
    · rw [max_eq_left (le_of_lt h)]
      ring
    · rw [max_eq_right (not_lt.mp h)]
      ring
  constructor
  · by_cases hs : o.state = ACTIVE
    · simp only [maybe_fill_active_order, ne_eq, hs, not_true_eq_false, ↓reduceIte, hmax,
        decide_eq_true_eq, true_and]
    · simp [maybe_fill_active_order, hs]
  · intro hs
    simp [maybe_fill_active_order, hs]

/-- C12, at a concrete input: a PENDING_CANCEL bid at the mid is never reported filled, and
a working bid at 99.9 against the mid 100 is reported filled at the draw 0 under the
exponential `exp_bound`, whose value at -1 is 1/2. -/
theorem maybe_fill_active_order_iff_witness :
    maybe_fill_active_order exp_bound { state := PENDING_CANCEL, price := 100 }
        { mid_price := 100, spread := 1 / 5 } 0 true = false
    ∧ maybe_fill_active_order exp_bound { state := ACTIVE, price := 999 / 10 }
        { mid_price := 100, spread := 1 / 5 } 0 true = true :=
  ⟨(maybe_fill_active_order_iff exp_bound { state := PENDING_CANCEL, price := 100 }
      { mid_price := 100, spread := 1 / 5 } 0 true).2 (by decide),
   (maybe_fill_active_order_iff exp_bound { state := ACTIVE, price := 999 / 10 }
      { mid_price := 100, spread := 1 / 5 } 0 true).1.mpr
      ⟨rfl, by norm_num [exp_bound]⟩⟩

/-! ## Skew direction, cancel requests and side independence (C15, C16, C17) -/

/-- C15 fails as stated: with the default parameters (gamma 0.01, base spread 0.2) and
mid-price 100, inventories -11 < -10 lie strictly inside the limits, yet the bid armed from
NONE is 99.99 at inventory -11 (clamped) and 100 at inventory -10; and for inventories
10 < 11 the ask armed from NONE is 100 at inventory 10 and 100.01 at inventory 11
(clamped).  In both cases the price armed with the larger inventory is higher. -/
theorem quote_skew_clamp_not_monotone :
    ((quote { inventory := -11 } { mid_price := 100, spread := 1 / 5 }).bid_order
        = { state := ACTIVE, price := 9999 / 100 }
      ∧ (quote { inventory := -10 } { mid_price := 100, spread := 1 / 5 }).bid_order
        = { state := ACTIVE, price := 100 }
      ∧ ¬ ((quote { inventory := -10 } { mid_price := 100, spread := 1 / 5 }).bid_order.price
          ≤ (quote { inventory := -11 } { mid_price := 100, spread := 1 / 5 }).bid_order.price))
    ∧ ((quote { inventory := 10 } { mid_price := 100, spread := 1 / 5 }).ask_order
        = { state := ACTIVE, price := 100 }
      ∧ (quote { inventory := 11 } { mid_price := 100, spread := 1 / 5 }).ask_order
        = { state := ACTIVE, price := 10001 / 100 }
      ∧ ¬ ((quote { inventory := 11 } { mid_price := 100, spread := 1 / 5 }).ask_order.price
          ≤ (quote { inventory := 10 } { mid_price := 100, spread := 1 / 5 }).ask_order.price))
    := by
  norm_num +decide [quote, request_cancel]

theorem raw_bid_antitone (mm : MarketMaker) (mkt : MarketState) (a b : ℚ)
    (hg : 0 < mm.gamma) (hab : a < b) :
    raw_bid { mm with inventory := b } mkt < raw_bid { mm with inventory := a } mkt := by
  simp only [raw_bid]
  have := mul_lt_mul_of_pos_left hab hg
  linarith

theorem raw_ask_antitone (mm : MarketMaker) (mkt : MarketState) (a b : ℚ)
    (hg : 0 < mm.gamma) (hab : a < b) :
    raw_ask { mm with inventory := b } mkt < raw_ask { mm with inventory := a } mkt := by
  simp only [raw_ask]
  have := mul_lt_mul_of_pos_left hab hg
  linarith

/-- C15, amended: for gamma > 0 and fixed mid-price and base spread, the desired prices
before the safety clamp are strictly lower for a larger inventory.  For two inventories
`a < b` strictly inside the cutoff limits, the bid that `quote` arms from NONE with inventory
`b` is no higher than the one it arms with inventory `a`, except exactly when the bid is
clamped at `a` and the desired bid at `b` lies in `(mid_price - 0.01, mid_price]`; the ask
armed with `b` is no higher than the one armed with `a`, except exactly when the ask is
clamped at `b` and the desired ask at `a` lies in `[mid_price, mid_price + 0.01)`.  In the
excepted cases the price armed with `b` is higher by at most 0.01. -/
theorem quote_skew_direction (mm : MarketMaker) (mkt : MarketState) (a b : ℚ)
    (hg : 0 < mm.gamma) (hab : a < b)
    (ha : -mm.inventory_limit < a ∧ a < mm.inventory_limit)
    (hb : -mm.inventory_limit < b ∧ b < mm.inventory_limit)
    (hbid : mm.bid_order.state = NONE) (hask : mm.ask_order.state = NONE) :
    raw_bid { mm with inventory := b } mkt < raw_bid { mm with inventory := a } mkt
    ∧ raw_ask { mm with inventory := b } mkt < raw_ask { mm with inventory := a } mkt
    ∧ ((quote { mm with inventory := b } mkt).bid_order.price
          ≤ (quote { mm with inventory := a } mkt).bid_order.price
        ↔ ¬ (raw_bid { mm with inventory := a } mkt > mkt.mid_price
              ∧ mkt.mid_price - 1 / 100 < raw_bid { mm with inventory := b } mkt
              ∧ raw_bid { mm with inventory := b } mkt ≤ mkt.mid_price))
    ∧ ((quote { mm with inventory := b } mkt).ask_order.price
          ≤ (quote { mm with inventory := a } mkt).ask_order.price
        ↔ ¬ (raw_ask { mm with inventory := b } mkt < mkt.mid_price
              ∧ mkt.mid_price ≤ raw_ask { mm with inventory := a } mkt
              ∧ raw_ask { mm with inventory := a } mkt < mkt.mid_price + 1 / 100))
    ∧ (quote { mm with inventory := b } mkt).bid_order.price
        ≤ (quote { mm with inventory := a } mkt).bid_order.price + 1 / 100
    ∧ (quote { mm with inventory := b } mkt).ask_order.price
        ≤ (quote { mm with inventory := a } mkt).ask_order.price + 1 / 100 := by
  have hrb := raw_bid_antitone mm mkt a b hg hab
  have hra := raw_ask_antitone mm mkt a b hg hab
  have hca : ¬ bid_cutoff { mm with inventory := a } := not_le.mpr ha.2
  have hcb : ¬ bid_cutoff { mm with inventory := b } := not_le.mpr hb.2
  have hda : ¬ ask_cutoff { mm with inventory := a } := not_le.mpr ha.1
  have hdb : ¬ ask_cutoff { mm with inventory := b } := not_le.mpr hb.1
  have harm_b : armable mm.bid_order.state := Or.inl hbid
  have harm_a : armable mm.ask_order.state := Or.inl hask
  have hpb : (quote { mm with inventory := b } mkt).bid_order.price
      = desired_bid { mm with inventory := b } mkt := by
    rw [quote_bid_order, if_neg hcb]
    simp only [if_pos harm_b]
  have hpa : (quote { mm with inventory := a } mkt).bid_order.price
      = desired_bid { mm with inventory := a } mkt := by
    rw [quote_bid_order, if_neg hca]
    simp only [if_pos harm_b]
  have hqb : (quote { mm with inventory := b } mkt).ask_order.price
      = desired_ask { mm with inventory := b } mkt := by
    rw [quote_ask_order, if_neg hdb]
    simp only [if_pos harm_a]
  have hqa : (quote { mm with inventory := a } mkt).ask_order.price
      = desired_ask { mm with inventory := a } mkt := by
    rw [quote_ask_order, if_neg hda]
    simp only [if_pos harm_a]
  rw [hpb, hpa, hqb, hqa]
  simp only [desired_bid, desired_ask]
  generalize raw_bid { mm with inventory := a } mkt = ra at hrb ⊢
  generalize raw_bid { mm with inventory := b } mkt = rb at hrb ⊢
  generalize raw_ask { mm with inventory := a } mkt = sa at hra ⊢
  generalize raw_ask { mm with inventory := b } mkt = sb at hra ⊢
  refine ⟨hrb, hra, ?_, ?_, ?_, ?_⟩
  · by_cases h1 : ra > mkt.mid_price
    · by_cases h2 : rb > mkt.mid_price
      · rw [if_pos h1, if_pos h2]
        constructor
        · intro _ hex
          exact absurd h2 (not_lt.mpr hex.2.2)
        · intro _
          exact le_refl _
      · rw [if_pos h1, if_neg h2]
        constructor
        · intro hle hex
          linarith [hex.2.1]
        · intro hex
          by_contra hlt
          exact hex ⟨h1, not_le.mp hlt, not_lt.mp h2⟩
    · have h2 : ¬ rb > mkt.mid_price := fun h => h1 (lt_trans h hrb)
      rw [if_neg h1, if_neg h2]
      constructor
      · intro _ hex
        exact h1 hex.1
      · intro _
        exact le_of_lt hrb
  · by_cases h1 : sb < mkt.mid_price
    · by_cases h2 : sa < mkt.mid_price
      · rw [if_pos h1, if_pos h2]
        constructor
        · intro _ hex
          exact absurd h2 (not_lt.mpr hex.2.1)
        · intro _
          exact le_refl _
      · rw [if_pos h1, if_neg h2]
        constructor
        · intro hle hex
          linarith [hex.2.2]
        · intro hex
          by_contra hlt
          exact hex ⟨h1, not_lt.mp h2, not_le.mp hlt⟩
    · have h2 : ¬ sa < mkt.mid_price := fun h => h1 (lt_trans hra h)
      rw [if_neg h1, if_neg h2]
      constructor
      · intro _ hex
        exact h1 hex.1
      · intro _
        exact le_of_lt hra
  · by_cases h1 : ra > mkt.mid_price
    · by_cases h2 : rb > mkt.mid_price
      · rw [if_pos h1, if_pos h2]
        linarith
      · rw [if_pos h1, if_neg h2]
        linarith [not_lt.mp h2]
    · have h2 : ¬ rb > mkt.mid_price := fun h => h1 (lt_trans h hrb)
      rw [if_neg h1, if_neg h2]
      linarith
  · by_cases h1 : sb < mkt.mid_price
    · by_cases h2 : sa < mkt.mid_price
      · rw [if_pos h1, if_pos h2]
        linarith
      · rw [if_pos h1, if_neg h2]
        linarith [not_lt.mp h2]
    · have h2 : ¬ sa < mkt.mid_price := fun h => h1 (lt_trans hra h)
      rw [if_neg h1, if_neg h2]
      linarith

/-- C15 amended, at a concrete input that straddles the clamp: with the default parameters
and mid-price 100, the bid armed at inventory 0 (99.9, not clamped) is no higher than the bid
armed at inventory -20 (99.99, clamped), and the ask armed at inventory 0 is no higher than
the ask armed at inventory -20. -/
theorem quote_skew_direction_witness :
    (quote { inventory := 0 } { mid_price := 100, spread := 1 / 5 }).bid_order.price
        ≤ (quote { inventory := -20 } { mid_price := 100, spread := 1 / 5 }).bid_order.price
    ∧ (quote { inventory := 0 } { mid_price := 100, spread := 1 / 5 }).ask_order.price
        ≤ (quote { inventory := -20 } { mid_price := 100, spread := 1 / 5 }).ask_order.price
    := by
  have h := quote_skew_direction {} { mid_price := 100, spread := 1 / 5 } (-20) 0
    (by norm_num) (by norm_num) (by norm_num) (by norm_num) rfl rfl
  exact ⟨h.2.2.1.mpr (by norm_num [raw_bid]), h.2.2.2.1.mpr (by norm_num [raw_ask])⟩

/-- C16: cancel requests are issued only under the hard cutoff.  If an order is
PENDING_CANCEL after `quote` and was not PENDING_CANCEL before, then it was ACTIVE at entry
and its side's cutoff applied (`inventory >= inventory_limit` for the bid,
`inventory <= -inventory_limit` for the ask); and `request_cancel` changes nothing on an
order that is not ACTIVE. -/
theorem cancel_only_under_cutoff (mm : MarketMaker) (mkt : MarketState) (o : Order) :
    ((quote mm mkt).bid_order.state = PENDING_CANCEL →
        mm.bid_order.state ≠ PENDING_CANCEL →
        mm.bid_order.state = ACTIVE ∧ mm.inventory ≥ mm.inventory_limit)
    ∧ ((quote mm mkt).ask_order.state = PENDING_CANCEL →
        mm.ask_order.state ≠ PENDING_CANCEL →
        mm.ask_order.state = ACTIVE ∧ mm.inventory ≤ -mm.inventory_limit)
    ∧ (o.state ≠ ACTIVE → request_cancel o = o) := by
  refine ⟨?_, ?_, ?_⟩
  · rw [quote_bid_order]
    intro h hn
    by_cases hc : bid_cutoff mm
    · rw [if_pos hc] at h
      refine ⟨?_, hc⟩
      by_contra ha
      simp only [request_cancel, if_neg ha] at h
      exact hn h
    · rw [if_neg hc] at h
      by_cases ha : armable mm.bid_order.state
      · simp [if_pos ha] at h
      · rw [if_neg ha] at h
        exact absurd h hn
  · rw [quote_ask_order]
    intro h hn
    by_cases hc : ask_cutoff mm
    · rw [if_pos hc] at h
      refine ⟨?_, hc⟩
      by_contra ha
      simp only [request_cancel, if_neg ha] at h
      exact hn h
    · rw [if_neg hc] at h
      by_cases ha : armable mm.ask_order.state
      · simp [if_pos ha] at h
      · rw [if_neg ha] at h
        exact absurd h hn
  · intro h
    simp [request_cancel, h]

/-- C16, at a concrete input: with inventory 10000 at the limit a working bid at 99.9 is
PENDING_CANCEL after `quote`, and it was ACTIVE with the bid cutoff applying. -/
theorem cancel_only_under_cutoff_witness :
    (quote { inventory := 10000, bid_order := { state := ACTIVE, price := 999 / 10 } }
        { mid_price := 100, spread := 1 / 5 }).bid_order.state = PENDING_CANCEL
    ∧ (({ inventory := 10000, bid_order := { state := ACTIVE, price := 999 / 10 } }
          : MarketMaker).bid_order.state = ACTIVE
      ∧ ({ inventory := 10000, bid_order := { state := ACTIVE, price := 999 / 10 } }
          : MarketMaker).inventory
        ≥ ({ inventory := 10000, bid_order := { state := ACTIVE, price := 999 / 10 } }
          : MarketMaker).inventory_limit) := by
  have hq : (quote { inventory := 10000, bid_order := { state := ACTIVE, price := 999 / 10 } }
      { mid_price := 100, spread := 1 / 5 }).bid_order.state = PENDING_CANCEL := by
    norm_num +decide [quote, request_cancel]
  exact ⟨hq, (cancel_only_under_cutoff
    { inventory := 10000, bid_order := { state := ACTIVE, price := 999 / 10 } }
    { mid_price := 100, spread := 1 / 5 } {}).1 hq (by decide)⟩

/-- C17: side independence in quoting.  The ask order produced by `quote` is determined by
the mid-price, the inventory, the parameters gamma, base spread and inventory limit, and the
ask order at entry: two calls that agree on these produce the same ask order, whatever the
bid orders (and cash, fair value and spread) are; and vice versa for the bid.  With
inventory 10000 at the limit and a working bid at 99.90, `quote` moves the bid to
PENDING_CANCEL, and the ask it produces is the one it produces for any other bid order. -/
theorem quote_side_independence (mm mm1 : MarketMaker) (mkt mkt1 : MarketState)
    (hmid : mkt.mid_price = mkt1.mid_price) (hinv : mm.inventory = mm1.inventory)
    (hg : mm.gamma = mm1.gamma) (hbs : mm.base_spread = mm1.base_spread)
    (hlim : mm.inventory_limit = mm1.inventory_limit) :
    (mm.ask_order = mm1.ask_order → (quote mm mkt).ask_order = (quote mm1 mkt1).ask_order)
    ∧ (mm.bid_order = mm1.bid_order → (quote mm mkt).bid_order = (quote mm1 mkt1).bid_order)
    ∧ ∀ (a b : Order),
        (quote { inventory := 10000, inventory_limit := 10000,
                 bid_order := { state := ACTIVE, price := 999 / 10 }, ask_order := a }
            mkt).bid_order = { state := PENDING_CANCEL, price := 999 / 10 }
        ∧ (quote { inventory := 10000, inventory_limit := 10000,
                   bid_order := { state := ACTIVE, price := 999 / 10 }, ask_order := a }
            mkt).ask_order
          = (quote { inventory := 10000, inventory_limit := 10000, bid_order := b,
                     ask_order := a } mkt).ask_order := by
  refine ⟨?_, ?_, ?_⟩
  · intro ho
    rw [quote_ask_order, quote_ask_order]
    simp only [ask_cutoff, desired_ask, raw_ask, hmid, hinv, hg, hbs, hlim, ho]
  · intro ho
    rw [quote_bid_order, quote_bid_order]
    simp only [bid_cutoff, desired_bid, raw_bid, hmid, hinv, hg, hbs, hlim, ho]
  · intro a b
    constructor
    · rw [quote_bid_order]
      norm_num +decide [bid_cutoff, request_cancel]
    · rw [quote_ask_order, quote_ask_order]
      simp only [ask_cutoff, desired_ask, raw_ask]

/-- C17, at a concrete input: at mid-price 100 and inventory 0 the ask that `quote`
produces from an idle ask is the same whether the bid is working at 99.9 or CANCELED. -/
theorem quote_side_independence_witness :
    (quote { bid_order := { state := ACTIVE, price := 999 / 10 } }
        { mid_price := 100, spread := 1 / 5 }).ask_order
      = (quote { bid_order := { state := CANCELED, price := 0 } }
        { mid_price := 100, spread := 3 }).ask_order :=
  (quote_side_independence { bid_order := { state := ACTIVE, price := 999 / 10 } }
    { bid_order := { state := CANCELED, price := 0 } } { mid_price := 100, spread := 1 / 5 }
    { mid_price := 100, spread := 3 } rfl rfl rfl rfl rfl).1 rfl

/-! ## Effect of each phase on each field -/

theorem maybe_fill_active_order_state (std_exp : ℚ → ℚ) (o : Order) (mkt : MarketState)
    (u : ℚ) (is_bid_side : Bool)
    (h : maybe_fill_active_order std_exp o mkt u is_bid_side = true) : o.state = ACTIVE := by
  by_contra hs
  simp [maybe_fill_active_order, hs] at h

theorem fill_bid_ask_order (std_exp : ℚ → ℚ) (qty_per_fill : ℤ) (mm : MarketMaker)
    (mkt : MarketState) (u : ℚ) :
    (fill_bid std_exp qty_per_fill mm mkt u).ask_order = mm.ask_order := by
  unfold fill_bid handle_fill
  split_ifs <;> rfl

theorem fill_bid_bid_order (std_exp : ℚ → ℚ) (qty_per_fill : ℤ) (mm : MarketMaker)
    (mkt : MarketState) (u : ℚ) :
    (fill_bid std_exp qty_per_fill mm mkt u).bid_order
      = if maybe_fill_active_order std_exp mm.bid_order mkt u true = true then
          { state := FILLED, price := mm.bid_order.price }
        else mm.bid_order := by
  unfold fill_bid handle_fill
  split_ifs <;> rfl

theorem fill_bid_inventory (std_exp : ℚ → ℚ) (qty_per_fill : ℤ) (mm : MarketMaker)
    (mkt : MarketState) (u : ℚ) :
    (fill_bid std_exp qty_per_fill mm mkt u).inventory
      = mm.inventory
        + (if maybe_fill_active_order std_exp mm.bid_order mkt u true = true then
            (qty_per_fill : ℚ) else 0) := by
  unfold fill_bid handle_fill
  split_ifs <;> simp

theorem fill_bid_cash (std_exp : ℚ → ℚ) (qty_per_fill : ℤ) (mm : MarketMaker)
    (mkt : MarketState) (u : ℚ) :
    (fill_bid std_exp qty_per_fill mm mkt u).cash
      = mm.cash
        - mm.bid_order.price
          * (if maybe_fill_active_order std_exp mm.bid_order mkt u true = true then
              (qty_per_fill : ℚ) else 0) := by
  unfold fill_bid handle_fill
  split_ifs <;> simp

theorem fill_ask_bid_order (std_exp : ℚ → ℚ) (qty_per_fill : ℤ) (mm : MarketMaker)
    (mkt : MarketState) (u : ℚ) :
    (fill_ask std_exp qty_per_fill mm mkt u).bid_order = mm.bid_order := by
  unfold fill_ask handle_fill
  split_ifs <;> rfl

theorem fill_ask_ask_order (std_exp : ℚ → ℚ) (qty_per_fill : ℤ) (mm : MarketMaker)
    (mkt : MarketState) (u : ℚ) :
    (fill_ask std_exp qty_per_fill mm mkt u).ask_order
      = if maybe_fill_active_order std_exp mm.ask_order mkt u false = true then
          { state := FILLED, price := mm.ask_order.price }
        else mm.ask_order := by
  unfold fill_ask handle_fill
  split_ifs <;> rfl

theorem fill_ask_inventory (std_exp : ℚ → ℚ) (qty_per_fill : ℤ) (mm : MarketMaker)
    (mkt : MarketState) (u : ℚ) :
    (fill_ask std_exp qty_per_fill mm mkt u).inventory
      = mm.inventory
        - (if maybe_fill_active_order std_exp mm.ask_order mkt u false = true then
            (qty_per_fill : ℚ) else 0) := by
  unfold fill_ask handle_fill
  split_ifs <;> simp
  ring

theorem fill_ask_cash (std_exp : ℚ → ℚ) (qty_per_fill : ℤ) (mm : MarketMaker)
    (mkt : MarketState) (u : ℚ) :
    (fill_ask std_exp qty_per_fill mm mkt u).cash
      = mm.cash
        + mm.ask_order.price
          * (if maybe_fill_active_order std_exp mm.ask_order mkt u false = true then
              (qty_per_fill : ℚ) else 0) := by
  unfold fill_ask handle_fill
  split_ifs <;> simp

theorem resolve_bid_bid_order (qty_per_fill : ℤ) (mm : MarketMaker) (mkt : MarketState)
    (fbc : Bool) :
    (resolve_bid qty_per_fill mm mkt fbc).bid_order
      = if mm.bid_order.state = PENDING_CANCEL then
          { state := if fbc = true then FILLED else CANCELED, price := mm.bid_order.price }
        else mm.bid_order := by
  by_cases h : mm.bid_order.state = PENDING_CANCEL <;> cases fbc <;>
    simp [resolve_bid, resolve_pending_cancel, h]

theorem resolve_bid_inventory (qty_per_fill : ℤ) (mm : MarketMaker) (mkt : MarketState)
    (fbc : Bool) :
    (resolve_bid qty_per_fill mm mkt fbc).inventory
      = mm.inventory
        + (if mm.bid_order.state = PENDING_CANCEL ∧ fbc = true then
            (qty_per_fill : ℚ) else 0) := by
  by_cases h : mm.bid_order.state = PENDING_CANCEL <;> cases fbc <;>
    simp [resolve_bid, resolve_pending_cancel, handle_fill, h]

theorem resolve_bid_cash (qty_per_fill : ℤ) (mm : MarketMaker) (mkt : MarketState)
    (fbc : Bool) :
    (resolve_bid qty_per_fill mm mkt fbc).cash
      = mm.cash
        - mm.bid_order.price
          * (if mm.bid_order.state = PENDING_CANCEL ∧ fbc = true then
              (qty_per_fill : ℚ) else 0) := by
  by_cases h : mm.bid_order.state = PENDING_CANCEL <;> cases fbc <;>
    simp [resolve_bid, resolve_pending_cancel, handle_fill, h]

theorem resolve_ask_ask_order (qty_per_fill : ℤ) (mm : MarketMaker) (mkt : MarketState)
    (fbc : Bool) :
    (resolve_ask qty_per_fill mm mkt fbc).ask_order
      = if mm.ask_order.state = PENDING_CANCEL then
          { state := if fbc = true then FILLED else CANCELED, price := mm.ask_order.price }
        else mm.ask_order := by
  by_cases h : mm.ask_order.state = PENDING_CANCEL <;> cases fbc <;>
    simp [resolve_ask, resolve_pending_cancel, h]

theorem resolve_ask_inventory (qty_per_fill : ℤ) (mm : MarketMaker) (mkt : MarketState)
    (fbc : Bool) :
    (resolve_ask qty_per_fill mm mkt fbc).inventory
      = mm.inventory
        - (if mm.ask_order.state = PENDING_CANCEL ∧ fbc = true then
            (qty_per_fill : ℚ) else 0) := by
  by_cases h : mm.ask_order.state = PENDING_CANCEL <;> cases fbc <;>
    simp [resolve_ask, resolve_pending_cancel, handle_fill, h]
  ring

theorem resolve_ask_cash (qty_per_fill : ℤ) (mm : MarketMaker) (mkt : MarketState)
    (fbc : Bool) :
    (resolve_ask qty_per_fill mm mkt fbc).cash
      = mm.cash
        + mm.ask_order.price
          * (if mm.ask_order.state = PENDING_CANCEL ∧ fbc = true then
              (qty_per_fill : ℚ) else 0) := by
  by_cases h : mm.ask_order.state = PENDING_CANCEL <;> cases fbc <;>
    simp [resolve_ask, resolve_pending_cancel, handle_fill, h]

theorem recycle_inventory_cash (mm : MarketMaker) :
    (recycle mm).inventory = mm.inventory ∧ (recycle mm).cash = mm.cash := by
  unfold recycle
  simp only []
  split_ifs <;> simp

theorem recycle_bid_order (mm : MarketMaker) :
    (recycle mm).bid_order
      = if mm.bid_order.state = FILLED ∨ mm.bid_order.state = CANCELED then
          { state := NONE, price := mm.bid_order.price }
        else mm.bid_order := by
  unfold recycle
  simp only []
  split_ifs <;> rfl

theorem recycle_ask_order (mm : MarketMaker) :
    (recycle mm).ask_order
      = if mm.ask_order.state = FILLED ∨ mm.ask_order.state = CANCELED then
          { state := NONE, price := mm.ask_order.price }
        else mm.ask_order := by
  unfold recycle
  simp only []
  split_ifs <;> rfl

theorem step_to_resolution_eq (std_exp : ℚ → ℚ) (qty_per_fill : ℤ) (s : Sim) (d : Draws) :
    step_to_resolution std_exp qty_per_fill s d
      = { mkt := (after_quote s d.shock).mkt,
          mm := fill_and_resolve std_exp qty_per_fill (after_quote s d.shock).mm
                  (after_quote s d.shock).mkt d } := rfl

theorem fill_and_resolve_bid_order (std_exp : ℚ → ℚ) (qty_per_fill : ℤ) (mm : MarketMaker)
    (mkt : MarketState) (d : Draws) :
    (fill_and_resolve std_exp qty_per_fill mm mkt d).bid_order
      = if maybe_fill_active_order std_exp mm.bid_order mkt d.u_bid true = true then
          { state := FILLED, price := mm.bid_order.price }
        else if mm.bid_order.state = PENDING_CANCEL then
          { state := if d.fbc_bid = true then FILLED else CANCELED,
            price := mm.bid_order.price }
        else mm.bid_order := by
  simp only [fill_and_resolve, resolve_ask_bid_order, resolve_bid_bid_order,
    fill_ask_bid_order, fill_bid_bid_order]
  by_cases hf : maybe_fill_active_order std_exp mm.bid_order mkt d.u_bid true = true
  · simp [hf]
  · simp only [hf]
    rfl

theorem fill_and_resolve_ask_order (std_exp : ℚ → ℚ) (qty_per_fill : ℤ) (mm : MarketMaker)
    (mkt : MarketState) (d : Draws) :
    (fill_and_resolve std_exp qty_per_fill mm mkt d).ask_order
      = if maybe_fill_active_order std_exp mm.ask_order mkt d.u_ask false = true then
          { state := FILLED, price := mm.ask_order.price }
        else if mm.ask_order.state = PENDING_CANCEL then
          { state := if d.fbc_ask = true then FILLED else CANCELED,
            price := mm.ask_order.price }
        else mm.ask_order := by
  simp only [fill_and_resolve, resolve_ask_ask_order, resolve_bid_ask_order,
    fill_ask_ask_order, fill_bid_ask_order]
  by_cases hf : maybe_fill_active_order std_exp mm.ask_order mkt d.u_ask false = true
  · simp [hf]
  · simp only [hf]
    rfl

theorem fill_and_resolve_inventory (std_exp : ℚ → ℚ) (qty_per_fill : ℤ) (mm : MarketMaker)
    (mkt : MarketState) (d : Draws) :
    (fill_and_resolve std_exp qty_per_fill mm mkt d).inventory
      = mm.inventory
        + (if bid_fills std_exp mm mkt d then (qty_per_fill : ℚ) else 0)
        - (if ask_fills std_exp mm mkt d then (qty_per_fill : ℚ) else 0) := by
  simp only [fill_and_resolve, resolve_ask_inventory, resolve_bid_inventory,
    fill_ask_inventory, fill_bid_inventory, resolve_bid_ask_order, fill_ask_bid_order,
    fill_ask_ask_order, fill_bid_bid_order, fill_bid_ask_order, bid_fills, ask_fills]
  by_cases hb : maybe_fill_active_order std_exp mm.bid_order mkt d.u_bid true = true
  · have hsb := maybe_fill_active_order_state _ _ _ _ _ hb
    by_cases ha : maybe_fill_active_order std_exp mm.ask_order mkt d.u_ask false = true
    · have hsa := maybe_fill_active_order_state _ _ _ _ _ ha
      simp [hb, ha, hsb, hsa]
    · by_cases hp : mm.ask_order.state = PENDING_CANCEL ∧ d.fbc_ask = true
      · simp [hb, ha, hsb, hp]
      · simp [hb, ha, hsb, hp]
  · by_cases hq : mm.bid_order.state = PENDING_CANCEL ∧ d.fbc_bid = true
    · by_cases ha : maybe_fill_active_order std_exp mm.ask_order mkt d.u_ask false = true
      · have hsa := maybe_fill_active_order_state _ _ _ _ _ ha
        simp [hb, ha, hq, hsa]
      · by_cases hp : mm.ask_order.state = PENDING_CANCEL ∧ d.fbc_ask = true
        · simp [hb, ha, hq, hp]
        · simp [hb, ha, hq, hp]
    · by_cases ha : maybe_fill_active_order std_exp mm.ask_order mkt d.u_ask false = true
      · have hsa := maybe_fill_active_order_state _ _ _ _ _ ha
        simp [hb, ha, hq, hsa]
      · by_cases hp : mm.ask_order.state = PENDING_CANCEL ∧ d.fbc_ask = true
        · simp [hb, ha, hq, hp]
        · simp [hb, ha, hq, hp]

theorem fill_and_resolve_cash (std_exp : ℚ → ℚ) (qty_per_fill : ℤ) (mm : MarketMaker)
    (mkt : MarketState) (d : Draws) :
    (fill_and_resolve std_exp qty_per_fill mm mkt d).cash
      = mm.cash
        - mm.bid_order.price * (if bid_fills std_exp mm mkt d then (qty_per_fill : ℚ) else 0)
        + mm.ask_order.price * (if ask_fills std_exp mm mkt d then (qty_per_fill : ℚ) else 0)
    := by
  simp only [fill_and_resolve, resolve_ask_cash, resolve_bid_cash,
    fill_ask_cash, fill_bid_cash, resolve_bid_ask_order, fill_ask_bid_order,
    fill_ask_ask_order, fill_bid_bid_order, fill_bid_ask_order, bid_fills, ask_fills]
  by_cases hb : maybe_fill_active_order std_exp mm.bid_order mkt d.u_bid true = true
  · have hsb := maybe_fill_active_order_state _ _ _ _ _ hb
    by_cases ha : maybe_fill_active_order std_exp mm.ask_order mkt d.u_ask false = true
    · have hsa := maybe_fill_active_order_state _ _ _ _ _ ha
      simp [hb, ha, hsb, hsa]
    · by_cases hp : mm.ask_order.state = PENDING_CANCEL ∧ d.fbc_ask = true
      · simp [hb, ha, hsb, hp]
      · simp [hb, ha, hsb, hp]
  · by_cases hq : mm.bid_order.state = PENDING_CANCEL ∧ d.fbc_bid = true
    · by_cases ha : maybe_fill_active_order std_exp mm.ask_order mkt d.u_ask false = true
      · have hsa := maybe_fill_active_order_state _ _ _ _ _ ha
        simp [hb, ha, hq, hsa]
        ring
      · by_cases hp : mm.ask_order.state = PENDING_CANCEL ∧ d.fbc_ask = true
        · simp [hb, ha, hq, hp]
        · simp [hb, ha, hq, hp]
    · by_cases ha : maybe_fill_active_order std_exp mm.ask_order mkt d.u_ask false = true
      · have hsa := maybe_fill_active_order_state _ _ _ _ _ ha
        simp [hb, ha, hq, hsa]
      · by_cases hp : mm.ask_order.state = PENDING_CANCEL ∧ d.fbc_ask = true
        · simp [hb, ha, hq, hp]
        · simp [hb, ha, hq, hp]

theorem bid_fills_transition (std_exp : ℚ → ℚ) (qty_per_fill : ℤ) (mm : MarketMaker)
    (mkt : MarketState) (d : Draws) (h : bid_fills std_exp mm mkt d) :
    mm.bid_order.state ≠ FILLED
    ∧ (fill_and_resolve std_exp qty_per_fill mm mkt d).bid_order.state = FILLED := by
  rw [fill_and_resolve_bid_order]
  rcases h with hf | ⟨hp, hc⟩
  · have hs := maybe_fill_active_order_state _ _ _ _ _ hf
    simp [hf, hs]
  · by_cases hf : maybe_fill_active_order std_exp mm.bid_order mkt d.u_bid true = true
    · have hs := maybe_fill_active_order_state _ _ _ _ _ hf
      simp [hf, hs]
    · simp [hf, hp, hc]

theorem ask_fills_transition (std_exp : ℚ → ℚ) (qty_per_fill : ℤ) (mm : MarketMaker)
    (mkt : MarketState) (d : Draws) (h : ask_fills std_exp mm mkt d) :
    mm.ask_order.state ≠ FILLED
    ∧ (fill_and_resolve std_exp qty_per_fill mm mkt d).ask_order.state = FILLED := by
  rw [fill_and_resolve_ask_order]
  rcases h with hf | ⟨hp, hc⟩
  · have hs := maybe_fill_active_order_state _ _ _ _ _ hf
    simp [hf, hs]
  · by_cases hf : maybe_fill_active_order std_exp mm.ask_order mkt d.u_ask false = true
    · have hs := maybe_fill_active_order_state _ _ _ _ _ hf
      simp [hf, hs]
    · simp [hf, hp, hc]

/-! ## Ledger changes within one step (C13, C14) -/

/-- C13: inventory and cash are mutated only by fills.  `quote` (with `request_cancel`),
the price update followed by `quote`, and the end-of-step recycle leave inventory and cash
unchanged; and one full loop iteration completes, with inventory or cash different from
their pre-step values only if at least one order went from a state other than FILLED after
quoting to FILLED at the invariant check of that step. -/
theorem inventory_cash_only_by_fills (std_exp : ℚ → ℚ) (qty_per_fill : ℤ) (s : Sim)
    (d : Draws) (mm : MarketMaker) (mkt : MarketState) (shock : ℚ) :
    ((quote mm mkt).inventory = mm.inventory ∧ (quote mm mkt).cash = mm.cash)
    ∧ ((after_quote s shock).mm.inventory = s.mm.inventory
        ∧ (after_quote s shock).mm.cash = s.mm.cash)
    ∧ ((recycle mm).inventory = mm.inventory ∧ (recycle mm).cash = mm.cash)
    ∧ ∃ s1, step std_exp qty_per_fill s d = Except.ok s1
        ∧ (s1.mm.inventory ≠ s.mm.inventory ∨ s1.mm.cash ≠ s.mm.cash →
            ((after_quote s d.shock).mm.bid_order.state ≠ FILLED
              ∧ (step_to_resolution std_exp qty_per_fill s d).mm.bid_order.state = FILLED)
            ∨ ((after_quote s d.shock).mm.ask_order.state ≠ FILLED
              ∧ (step_to_resolution std_exp qty_per_fill s d).mm.ask_order.state = FILLED))
    := by
  have hq : ∀ (m : MarketMaker) (k : MarketState),
      (quote m k).inventory = m.inventory ∧ (quote m k).cash = m.cash :=
    fun m k => ⟨(quote_frame m k).1, (quote_frame m k).2.1⟩
  refine ⟨hq mm mkt, hq _ _, recycle_inventory_cash mm, _, step_eq_step_result _ _ _ _, ?_⟩
  intro hne
  simp only [step_result, (recycle_inventory_cash _).1, (recycle_inventory_cash _).2,
    step_to_resolution_eq, fill_and_resolve_inventory, fill_and_resolve_cash] at hne
  simp only [step_to_resolution_eq]
  have hi := (hq s.mm (update_midprice s.mkt d.shock)).1
  have hc := (hq s.mm (update_midprice s.mkt d.shock)).2
  by_cases hb : bid_fills std_exp (after_quote s d.shock).mm (after_quote s d.shock).mkt d
  · exact Or.inl (bid_fills_transition std_exp qty_per_fill _ _ d hb)
  · by_cases ha : ask_fills std_exp (after_quote s d.shock).mm (after_quote s d.shock).mkt d
    · exact Or.inr (ask_fills_transition std_exp qty_per_fill _ _ d ha)
    · exfalso
      simp only [if_neg hb, if_neg ha, mul_zero, add_zero, sub_zero] at hne
      rcases hne with h | h
      · exact h hi
      · exact h hc

/-- C13, at a concrete input: from `quoted_sim` with both orders filled by the fill engine
the cash changes (by 100.1 - 99.9), and the bid went from ACTIVE after quoting to FILLED. -/
theorem inventory_cash_only_by_fills_witness :
    ((after_quote quoted_sim both_fill_draws.shock).mm.bid_order.state ≠ FILLED
      ∧ (step_to_resolution exp_bound main_qty_per_fill quoted_sim
          both_fill_draws).mm.bid_order.state = FILLED)
    ∨ ((after_quote quoted_sim both_fill_draws.shock).mm.ask_order.state ≠ FILLED
      ∧ (step_to_resolution exp_bound main_qty_per_fill quoted_sim
          both_fill_draws).mm.ask_order.state = FILLED) := by
  obtain ⟨s1, hs, h⟩ := (inventory_cash_only_by_fills exp_bound main_qty_per_fill quoted_sim
    both_fill_draws {} quoted_sim.mkt 0).2.2.2
  rw [step_eq_step_result] at hs
  simp only [Except.ok.injEq] at hs
  subst hs
  apply h
  right
  norm_num +decide [step_result, step_to_resolution, after_quote, update_midprice, std_max,
    quote, request_cancel, fill_bid, fill_ask, maybe_fill_active_order, resolve_bid,
    resolve_ask, resolve_pending_cancel, recycle, handle_fill, main_qty_per_fill,
    both_fill_draws, quoted_sim, exp_bound]

/-- C14: no double resolution.  Name the market maker after each call of phases 3 and 4 of
one loop iteration: `m1` after quoting, `m2` after the bid fill attempt, `m3` after the ask
fill attempt, `m4` after the bid cancel resolution, `m5` after the ask cancel resolution.
Then `m5` is the market maker at the invariant check; the two bid-side calls together change
the inventory by 0 or by `+qty_per_fill` and the two ask-side calls by 0 or by
`-qty_per_fill`; and an order that the fill engine fills in phase 3 is FILLED before phase 4
and its cancel resolution changes nothing. -/
theorem one_fill_per_side (std_exp : ℚ → ℚ) (qty_per_fill : ℤ) (s : Sim) (d : Draws)
    (mkt : MarketState) (m1 m2 m3 m4 m5 : MarketMaker)
    (hmkt : mkt = (after_quote s d.shock).mkt)
    (h1 : m1 = (after_quote s d.shock).mm)
    (h2 : m2 = fill_bid std_exp qty_per_fill m1 mkt d.u_bid)
    (h3 : m3 = fill_ask std_exp qty_per_fill m2 mkt d.u_ask)
    (h4 : m4 = resolve_bid qty_per_fill m3 mkt d.fbc_bid)
    (h5 : m5 = resolve_ask qty_per_fill m4 mkt d.fbc_ask) :
    (step_to_resolution std_exp qty_per_fill s d).mm = m5
    ∧ m1.inventory = s.mm.inventory
    ∧ ((m2.inventory - m1.inventory) + (m4.inventory - m3.inventory) = 0
        ∨ (m2.inventory - m1.inventory) + (m4.inventory - m3.inventory)
            = (qty_per_fill : ℚ))
    ∧ ((m3.inventory - m2.inventory) + (m5.inventory - m4.inventory) = 0
        ∨ (m3.inventory - m2.inventory) + (m5.inventory - m4.inventory)
            = -(qty_per_fill : ℚ))
    ∧ (maybe_fill_active_order std_exp m1.bid_order mkt d.u_bid true = true →
        m2.bid_order.state = FILLED ∧ m3.bid_order.state = FILLED ∧ m4 = m3)
    ∧ (maybe_fill_active_order std_exp m2.ask_order mkt d.u_ask false = true →
        m3.ask_order.state = FILLED ∧ m4.ask_order.state = FILLED ∧ m5 = m4) := by
  subst h5 h4 h3 h2 h1 hmkt
  refine ⟨rfl, (quote_frame _ _).1, ?_, ?_, ?_, ?_⟩
  · simp only [resolve_bid_inventory, fill_ask_bid_order, fill_bid_bid_order,
      fill_bid_inventory]
    by_cases hf : maybe_fill_active_order std_exp (after_quote s d.shock).mm.bid_order
        (after_quote s d.shock).mkt d.u_bid true = true
    · right
      simp [hf]
    · by_cases hp : (after_quote s d.shock).mm.bid_order.state = PENDING_CANCEL
          ∧ d.fbc_bid = true
      · right
        simp [hf, hp]
      · left
        simp [hf, hp]
  · simp only [resolve_ask_inventory, resolve_bid_ask_order, fill_ask_ask_order,
      fill_ask_inventory]
    by_cases hf : maybe_fill_active_order std_exp
        (fill_bid std_exp qty_per_fill (after_quote s d.shock).mm (after_quote s d.shock).mkt
          d.u_bid).ask_order (after_quote s d.shock).mkt d.u_ask false = true
    · right
      simp [hf]
    · by_cases hp : (fill_bid std_exp qty_per_fill (after_quote s d.shock).mm
          (after_quote s d.shock).mkt d.u_bid).ask_order.state = PENDING_CANCEL
          ∧ d.fbc_ask = true
      · right
        simp [hf, hp]
      · left
        simp [hf, hp]
  · intro hf
    have hs : (fill_bid std_exp qty_per_fill (after_quote s d.shock).mm
        (after_quote s d.shock).mkt d.u_bid).bid_order.state = FILLED := by
      rw [fill_bid_bid_order, if_pos hf]
    have hs3 : (fill_ask std_exp qty_per_fill
        (fill_bid std_exp qty_per_fill (after_quote s d.shock).mm (after_quote s d.shock).mkt
          d.u_bid) (after_quote s d.shock).mkt d.u_ask).bid_order.state = FILLED := by
      rw [fill_ask_bid_order]
      exact hs
    refine ⟨hs, hs3, resolve_bid_of_not_pending _ _ _ _ ?_⟩
    rw [hs3]
    decide
  · intro hf
    have hs : (fill_ask std_exp qty_per_fill
        (fill_bid std_exp qty_per_fill (after_quote s d.shock).mm (after_quote s d.shock).mkt
          d.u_bid) (after_quote s d.shock).mkt d.u_ask).ask_order.state = FILLED := by
      rw [fill_ask_ask_order, if_pos hf]
    have hs4 : (resolve_bid qty_per_fill (fill_ask std_exp qty_per_fill
        (fill_bid std_exp qty_per_fill (after_quote s d.shock).mm (after_quote s d.shock).mkt
          d.u_bid) (after_quote s d.shock).mkt d.u_ask) (after_quote s d.shock).mkt
          d.fbc_bid).ask_order.state = FILLED := by
      rw [resolve_bid_ask_order]
      exact hs
    refine ⟨hs, hs4, resolve_ask_of_not_pending _ _ _ _ ?_⟩
    rw [hs4]
    decide

/-- C14, at a concrete input: from `quoted_sim` with the draws `both_fill_draws` the fill
engine fills the working bid, which is then FILLED, and the bid cancel resolution leaves the
market maker as it was. -/
theorem one_fill_per_side_witness :
    (fill_bid exp_bound main_qty_per_fill (after_quote quoted_sim both_fill_draws.shock).mm
        (after_quote quoted_sim both_fill_draws.shock).mkt
        both_fill_draws.u_bid).bid_order.state = FILLED
    ∧ resolve_bid main_qty_per_fill
        (fill_ask exp_bound main_qty_per_fill
          (fill_bid exp_bound main_qty_per_fill
            (after_quote quoted_sim both_fill_draws.shock).mm
            (after_quote quoted_sim both_fill_draws.shock).mkt both_fill_draws.u_bid)
          (after_quote quoted_sim both_fill_draws.shock).mkt both_fill_draws.u_ask)
        (after_quote quoted_sim both_fill_draws.shock).mkt both_fill_draws.fbc_bid
      = fill_ask exp_bound main_qty_per_fill
          (fill_bid exp_bound main_qty_per_fill
            (after_quote quoted_sim both_fill_draws.shock).mm
            (after_quote quoted_sim both_fill_draws.shock).mkt both_fill_draws.u_bid)
          (after_quote quoted_sim both_fill_draws.shock).mkt both_fill_draws.u_ask := by
  have hf : maybe_fill_active_order exp_bound
      (after_quote quoted_sim both_fill_draws.shock).mm.bid_order
      (after_quote quoted_sim both_fill_draws.shock).mkt both_fill_draws.u_bid true = true := by
    norm_num +decide [after_quote, update_midprice, std_max, quote, request_cancel,
      maybe_fill_active_order, both_fill_draws, quoted_sim, exp_bound]
  have h := (one_fill_per_side exp_bound main_qty_per_fill quoted_sim both_fill_draws
    _ _ _ _ _ _ rfl rfl rfl rfl rfl rfl).2.2.2.2.1 hf
  exact ⟨h.1, h.2.2⟩

/-! ## The invariant of the driver loop (C18, C19) -/

theorem fill_and_resolve_same_params (std_exp : ℚ → ℚ) (qty_per_fill : ℤ) (mm : MarketMaker)
    (mkt : MarketState) (d : Draws) :
    same_params (fill_and_resolve std_exp qty_per_fill mm mkt d) mm := by
  unfold fill_and_resolve
  exact same_params_trans (resolve_ask_same_params _ _ _ _)
    (same_params_trans (resolve_bid_same_params _ _ _ _)
      (same_params_trans (fill_ask_same_params _ _ _ _ _) (fill_bid_same_params _ _ _ _ _)))

theorem step_result_mm (std_exp : ℚ → ℚ) (qty_per_fill : ℤ) (s : Sim) (d : Draws) :
    (step_result std_exp qty_per_fill s d).mm
      = recycle (fill_and_resolve std_exp qty_per_fill
          (quote s.mm (update_midprice s.mkt d.shock)) (update_midprice s.mkt d.shock) d) := by
  simp only [step_result, step_to_resolution_eq, after_quote]

theorem quote_order_inv (mm : MarketMaker) (mkt : MarketState) (h : order_inv mm) :
    order_inv (quote mm mkt) := by
  obtain ⟨hb, ha, hbl, hal⟩ := h
  obtain ⟨hinv, _, _, _, hlim, _⟩ := quote_frame mm mkt
  unfold order_inv
  rw [hinv, hlim, quote_bid_order, quote_ask_order]
  refine ⟨?_, ?_, ?_, ?_⟩
  · rcases hb with h | h
    · by_cases hc : bid_cutoff mm
      · simp [hc, request_cancel, h]
      · simp [hc, armable, h]
    · have hc : ¬ bid_cutoff mm := not_le.mpr (hbl h)
      simp [hc, armable, h]
  · rcases ha with h | h
    · by_cases hc : ask_cutoff mm
      · simp [hc, request_cancel, h]
      · simp [hc, armable, h]
    · have hc : ¬ ask_cutoff mm := not_le.mpr (hal h)
      simp [hc, armable, h]
  · by_cases hc : bid_cutoff mm
    · rcases hb with h | h
      · simp [hc, request_cancel, h]
      · exact absurd hc (not_le.mpr (hbl h))
    · intro _
      exact not_le.mp hc
  · by_cases hc : ask_cutoff mm
    · rcases ha with h | h
      · simp [hc, request_cancel, h]
      · exact absurd hc (not_le.mpr (hal h))
    · intro _
      exact not_le.mp hc

theorem order_inv_not_pending (mm : MarketMaker) (h : order_inv mm) :
    mm.bid_order.state ≠ PENDING_CANCEL ∧ mm.ask_order.state ≠ PENDING_CANCEL := by
  obtain ⟨hb, ha, _, _⟩ := h
  constructor
  · rcases hb with h | h <;> simp [h]
  · rcases ha with h | h <;> simp [h]

/-- Under the invariant no cancel is pending in phases 3 and 4, so each order is left as it
was or FILLED by the fill engine, and the ledger moves by the fills of the fill engine. -/
theorem fill_and_resolve_of_order_inv (std_exp : ℚ → ℚ) (qty_per_fill : ℤ) (mm : MarketMaker)
    (mkt : MarketState) (d : Draws) (h : order_inv mm) :
    (fill_and_resolve std_exp qty_per_fill mm mkt d).bid_order.state
        = (if maybe_fill_active_order std_exp mm.bid_order mkt d.u_bid true = true then FILLED
           else mm.bid_order.state)
    ∧ (fill_and_resolve std_exp qty_per_fill mm mkt d).ask_order.state
        = (if maybe_fill_active_order std_exp mm.ask_order mkt d.u_ask false = true then FILLED
           else mm.ask_order.state)
    ∧ (fill_and_resolve std_exp qty_per_fill mm mkt d).inventory
        = mm.inventory
          + (if maybe_fill_active_order std_exp mm.bid_order mkt d.u_bid true = true then
              (qty_per_fill : ℚ) else 0)
          - (if maybe_fill_active_order std_exp mm.ask_order mkt d.u_ask false = true then
              (qty_per_fill : ℚ) else 0) := by
  obtain ⟨hnb, hna⟩ := order_inv_not_pending mm h
  refine ⟨?_, ?_, ?_⟩
  · rw [fill_and_resolve_bid_order]
    by_cases hf : maybe_fill_active_order std_exp mm.bid_order mkt d.u_bid true = true
    · simp [hf]
    · simp [hf, hnb]
  · rw [fill_and_resolve_ask_order]
    by_cases hf : maybe_fill_active_order std_exp mm.ask_order mkt d.u_ask false = true
    · simp [hf]
    · simp [hf, hna]
  · rw [fill_and_resolve_inventory]
    simp only [bid_fills, ask_fills, hnb, hna, false_and, or_false]

theorem recycle_fill_and_resolve_order_inv (std_exp : ℚ → ℚ) (qty_per_fill : ℤ)
    (hq : 0 ≤ qty_per_fill) (mm : MarketMaker) (mkt : MarketState) (d : Draws)
    (h : order_inv mm) :
    order_inv (recycle (fill_and_resolve std_exp qty_per_fill mm mkt d)) := by
  obtain ⟨hsb, hsa, hinv⟩ := fill_and_resolve_of_order_inv std_exp qty_per_fill mm mkt d h
  obtain ⟨hb, ha, hbl, hal⟩ := h
  have hq1 : (0 : ℚ) ≤ (qty_per_fill : ℚ) := by exact_mod_cast hq
  have hlim : (recycle (fill_and_resolve std_exp qty_per_fill mm mkt d)).inventory_limit
      = mm.inventory_limit :=
    ((recycle_same_params _).2.2.1).trans
      (fill_and_resolve_same_params std_exp qty_per_fill mm mkt d).2.2.1
  have hrb : (recycle (fill_and_resolve std_exp qty_per_fill mm mkt d)).bid_order.state
      = (if maybe_fill_active_order std_exp mm.bid_order mkt d.u_bid true = true then NONE
         else mm.bid_order.state) := by
    rw [recycle_bid_order]
    by_cases hf : maybe_fill_active_order std_exp mm.bid_order mkt d.u_bid true = true
    · simp [hsb, hf]
    · rcases hb with h1 | h1 <;> simp [hsb, hf, h1]
  have hra : (recycle (fill_and_resolve std_exp qty_per_fill mm mkt d)).ask_order.state
      = (if maybe_fill_active_order std_exp mm.ask_order mkt d.u_ask false = true then NONE
         else mm.ask_order.state) := by
    rw [recycle_ask_order]
    by_cases hf : maybe_fill_active_order std_exp mm.ask_order mkt d.u_ask false = true
    · simp [hsa, hf]
    · rcases ha with h1 | h1 <;> simp [hsa, hf, h1]
  unfold order_inv
  rw [hlim, (recycle_inventory_cash _).1, hinv, hrb, hra]
  refine ⟨?_, ?_, ?_, ?_⟩
  · by_cases hf : maybe_fill_active_order std_exp mm.bid_order mkt d.u_bid true = true
    · simp [hf]
    · simp only [if_neg hf]
      exact hb
  · by_cases hf : maybe_fill_active_order std_exp mm.ask_order mkt d.u_ask false = true
    · simp [hf]
    · simp only [if_neg hf]
      exact ha
  · by_cases hf : maybe_fill_active_order std_exp mm.bid_order mkt d.u_bid true = true
    · simp [hf]
    · simp only [if_neg hf, add_zero]
      intro h1
      have h2 := hbl h1
      by_cases hg : maybe_fill_active_order std_exp mm.ask_order mkt d.u_ask false = true
      · simp only [if_pos hg]
        linarith
      · simp only [if_neg hg, sub_zero]
        exact h2
  · by_cases hf : maybe_fill_active_order std_exp mm.ask_order mkt d.u_ask false = true
    · simp [hf]
    · simp only [if_neg hf, sub_zero]
      intro h1
      have h2 := hal h1
      by_cases hg : maybe_fill_active_order std_exp mm.bid_order mkt d.u_bid true = true
      · simp only [if_pos hg]
        linarith
      · simp only [if_neg hg, add_zero]
        exact h2

theorem order_inv_init : order_inv init.mm := by
  simp [order_inv, init]

theorem step_result_order_inv (std_exp : ℚ → ℚ) (qty_per_fill : ℤ) (hq : 0 ≤ qty_per_fill)
    (s : Sim) (d : Draws) (h : order_inv s.mm) :
    order_inv (step_result std_exp qty_per_fill s d).mm := by
  rw [step_result_mm]
  exact recycle_fill_and_resolve_order_inv std_exp qty_per_fill hq _ _ d
    (quote_order_inv s.mm _ h)

theorem step_result_main_inv (std_exp : ℚ → ℚ) (s : Sim) (d : Draws) (h : main_inv s) :
    main_inv (step_result std_exp main_qty_per_fill s d) := by
  obtain ⟨hpar, hoi, ⟨n, hn⟩, hlo, hhi⟩ := h
  have hlim0 : s.mm.inventory_limit = 10000 := hpar.2.2.1
  have hm := quote_order_inv s.mm (update_midprice s.mkt d.shock) hoi
  obtain ⟨hfinv, _, _, _, hflim, _⟩ := quote_frame s.mm (update_midprice s.mkt d.shock)
  obtain ⟨_, _, hinv⟩ := fill_and_resolve_of_order_inv std_exp main_qty_per_fill
    (quote s.mm (update_midprice s.mkt d.shock)) (update_midprice s.mkt d.shock) d hm
  have hbid : maybe_fill_active_order std_exp
      (quote s.mm (update_midprice s.mkt d.shock)).bid_order (update_midprice s.mkt d.shock)
      d.u_bid true = true → n ≤ 9999 := by
    intro hf
    have h1 := hm.2.2.1 (maybe_fill_active_order_state _ _ _ _ _ hf)
    rw [hfinv, hflim, hlim0, hn] at h1
    have h2 : n < 10000 := by exact_mod_cast h1
    omega
  have hask : maybe_fill_active_order std_exp
      (quote s.mm (update_midprice s.mkt d.shock)).ask_order (update_midprice s.mkt d.shock)
      d.u_ask false = true → -9999 ≤ n := by
    intro hf
    have h1 := hm.2.2.2 (maybe_fill_active_order_state _ _ _ _ _ hf)
    rw [hfinv, hflim, hlim0, hn] at h1
    have h2 : -10000 < n := by exact_mod_cast h1
    omega
  have hlo1 : -10000 ≤ n := by
    rw [hn] at hlo
    exact_mod_cast hlo
  have hhi1 : n ≤ 10000 := by
    rw [hn] at hhi
    exact_mod_cast hhi
  refine ⟨same_params_trans (step_result_same_params _ _ _ _) hpar,
    step_result_order_inv std_exp main_qty_per_fill (by decide) s d hoi, ?_⟩
  rw [step_result_mm, (recycle_inventory_cash _).1, hinv, hfinv, hn]
  simp only [main_qty_per_fill, Int.cast_one]
  by_cases hfb : maybe_fill_active_order std_exp
      (quote s.mm (update_midprice s.mkt d.shock)).bid_order (update_midprice s.mkt d.shock)
      d.u_bid true = true
  · have hb1 := hbid hfb
    by_cases hfa : maybe_fill_active_order std_exp
        (quote s.mm (update_midprice s.mkt d.shock)).ask_order
        (update_midprice s.mkt d.shock) d.u_ask false = true
    · simp only [if_pos hfb, if_pos hfa]
      refine ⟨⟨n, by ring⟩, ?_, ?_⟩
      · have : ((-10000 : ℤ) : ℚ) ≤ (n : ℚ) := by exact_mod_cast hlo1
        push_cast at this
        linarith
      · have : (n : ℚ) ≤ ((10000 : ℤ) : ℚ) := by exact_mod_cast hhi1
        push_cast at this
        linarith
    · simp only [if_pos hfb, if_neg hfa, sub_zero]
      refine ⟨⟨n + 1, by push_cast; ring⟩, ?_, ?_⟩
      · have : ((-10000 : ℤ) : ℚ) ≤ (n : ℚ) := by exact_mod_cast hlo1
        push_cast at this
        linarith
      · have : (n : ℚ) ≤ ((9999 : ℤ) : ℚ) := by exact_mod_cast hb1
        push_cast at this
        linarith
  · by_cases hfa : maybe_fill_active_order std_exp
        (quote s.mm (update_midprice s.mkt d.shock)).ask_order
        (update_midprice s.mkt d.shock) d.u_ask false = true
    · have ha1 := hask hfa
      simp only [if_neg hfb, if_pos hfa, add_zero]
      refine ⟨⟨n - 1, by push_cast; ring⟩, ?_, ?_⟩
      · have : ((-9999 : ℤ) : ℚ) ≤ (n : ℚ) := by exact_mod_cast ha1
        push_cast at this
        linarith
      · have : (n : ℚ) ≤ ((10000 : ℤ) : ℚ) := by exact_mod_cast hhi1
        push_cast at this
        linarith
    · simp only [if_neg hfb, if_neg hfa, add_zero, sub_zero]
      refine ⟨⟨n, rfl⟩, ?_, ?_⟩
      · exact_mod_cast hlo1
      · exact_mod_cast hhi1

theorem main_inv_init : main_inv init := by
  refine ⟨same_params_refl _, order_inv_init, ⟨0, ?_⟩, ?_, ?_⟩ <;> norm_num [init]

/-- C18: `inventory_limit` bounds the absolute inventory in the run of `main`.  From `init`
with `qty_per_fill = 1`, for every number of iterations and every sequence of draws, the loop
has not exited, the limit is 10000 and `|inventory| <= inventory_limit` holds at the end of
every iteration. -/
theorem inventory_within_limit (std_exp : ℚ → ℚ) (ds : List Draws) :
    ∃ s, run std_exp main_qty_per_fill init ds = Except.ok s
      ∧ s.mm.inventory_limit = 10000
      ∧ |s.mm.inventory| ≤ s.mm.inventory_limit := by
  obtain ⟨s, hrun, hpar, _, _, hlo, hhi⟩ := run_invariant std_exp main_qty_per_fill main_inv
    (fun s d hs => step_result_main_inv std_exp s d hs) init main_inv_init ds
  have hlim : s.mm.inventory_limit = 10000 := hpar.2.2.1
  refine ⟨s, hrun, hlim, ?_⟩
  rw [hlim]
  exact abs_le.mpr ⟨hlo, hhi⟩

/-- C19: in the loop started from `init` with `qty_per_fill > 0`, for every number of
iterations and every sequence of draws, the loop has not exited and at the start of every
iteration each order is NONE or ACTIVE, a working bid comes with
`inventory < inventory_limit` and a working ask with `inventory > -inventory_limit`.
Consequently `quote` does not reach `request_cancel` in that iteration (no side is ACTIVE
with its cutoff applying), no order is PENDING_CANCEL after quoting, and at the invariant
check of that iteration no order is PENDING_CANCEL or CANCELED. -/
theorem no_cancel_in_run (std_exp : ℚ → ℚ) (qty_per_fill : ℤ) (hq : 0 < qty_per_fill)
    (ds : List Draws) (d : Draws) :
    ∃ s, run std_exp qty_per_fill init ds = Except.ok s
      ∧ (s.mm.bid_order.state = NONE ∨ s.mm.bid_order.state = ACTIVE)
      ∧ (s.mm.ask_order.state = NONE ∨ s.mm.ask_order.state = ACTIVE)
      ∧ (s.mm.bid_order.state = ACTIVE → s.mm.inventory < s.mm.inventory_limit)
      ∧ (s.mm.ask_order.state = ACTIVE → s.mm.inventory > -s.mm.inventory_limit)
      ∧ ¬ (s.mm.inventory ≥ s.mm.inventory_limit ∧ s.mm.bid_order.state = ACTIVE)
      ∧ ¬ (s.mm.inventory ≤ -s.mm.inventory_limit ∧ s.mm.ask_order.state = ACTIVE)
      ∧ (after_quote s d.shock).mm.bid_order.state ≠ PENDING_CANCEL
      ∧ (after_quote s d.shock).mm.ask_order.state ≠ PENDING_CANCEL
      ∧ (step_to_resolution std_exp qty_per_fill s d).mm.bid_order.state ≠ PENDING_CANCEL
      ∧ (step_to_resolution std_exp qty_per_fill s d).mm.bid_order.state ≠ CANCELED
      ∧ (step_to_resolution std_exp qty_per_fill s d).mm.ask_order.state ≠ PENDING_CANCEL
      ∧ (step_to_resolution std_exp qty_per_fill s d).mm.ask_order.state ≠ CANCELED := by
  obtain ⟨s, hrun, hoi⟩ := run_invariant std_exp qty_per_fill (fun s => order_inv s.mm)
    (fun s d hs => step_result_order_inv std_exp qty_per_fill (le_of_lt hq) s d hs)
    init order_inv_init ds
  have hm := quote_order_inv s.mm (update_midprice s.mkt d.shock) hoi
  obtain ⟨hnb, hna⟩ := order_inv_not_pending _ hm
  obtain ⟨hsb, hsa, _⟩ := fill_and_resolve_of_order_inv std_exp qty_per_fill
    (quote s.mm (update_midprice s.mkt d.shock)) (update_midprice s.mkt d.shock) d hm
  have hsb1 : (step_to_resolution std_exp qty_per_fill s d).mm.bid_order.state
      = (if maybe_fill_active_order std_exp
            (quote s.mm (update_midprice s.mkt d.shock)).bid_order
            (update_midprice s.mkt d.shock) d.u_bid true = true then FILLED
         else (quote s.mm (update_midprice s.mkt d.shock)).bid_order.state) := hsb
  have hsa1 : (step_to_resolution std_exp qty_per_fill s d).mm.ask_order.state
      = (if maybe_fill_active_order std_exp
            (quote s.mm (update_midprice s.mkt d.shock)).ask_order
            (update_midprice s.mkt d.shock) d.u_ask false = true then FILLED
         else (quote s.mm (update_midprice s.mkt d.shock)).ask_order.state) := hsa
  obtain ⟨hb, ha, hbl, hal⟩ := hoi
  refine ⟨s, hrun, hb, ha, hbl, hal, ?_, ?_, hnb, hna, ?_, ?_, ?_, ?_⟩
  · rintro ⟨h1, h2⟩
    exact absurd h1 (not_le.mpr (hbl h2))
  · rintro ⟨h1, h2⟩
    exact absurd h1 (not_le.mpr (hal h2))
  · rw [hsb1]
    split_ifs
    · decide
    · exact hnb
  · rw [hsb1]
    split_ifs
    · decide
    · rcases hm.1 with h | h <;> simp [h]
  · rw [hsa1]
    split_ifs
    · decide
    · exact hna
  · rw [hsa1]
    split_ifs
    · decide
    · rcases hm.2.1 with h | h <;> simp [h]

/-- C19, at a concrete input: after one quiet iteration from `init` both orders are working
with inventory 0 inside the limits, and in the next iteration with `both_fill_draws` no order
is PENDING_CANCEL after quoting or CANCELED at the invariant check. -/
theorem no_cancel_in_run_witness :
    quoted_sim.mm.inventory < quoted_sim.mm.inventory_limit
    ∧ (after_quote quoted_sim both_fill_draws.shock).mm.bid_order.state ≠ PENDING_CANCEL
    ∧ (after_quote quoted_sim both_fill_draws.shock).mm.ask_order.state ≠ PENDING_CANCEL
    ∧ (step_to_resolution exp_bound main_qty_per_fill quoted_sim
        both_fill_draws).mm.bid_order.state ≠ CANCELED
    ∧ (step_to_resolution exp_bound main_qty_per_fill quoted_sim
        both_fill_draws).mm.ask_order.state ≠ CANCELED := by
  obtain ⟨s, hrun, _, _, hbl, _, _, _, hqb, hqa, _, hcb, _, hca⟩ :=
    no_cancel_in_run exp_bound main_qty_per_fill (by decide) [quiet_draws] both_fill_draws
  rw [run_quiet_step exp_bound (by norm_num [exp_bound])] at hrun
  simp only [Except.ok.injEq] at hrun
  subst hrun
  exact ⟨hbl rfl, hqb, hqa, hcb, hca⟩

end MarketMakerSim
